import Mathlib

/-!
Verification of the tower-defense simulation core.

Shallow embedding of the engine (`tickGame` and its helpers), the path
module (`samplePolyline`, route construction) and the economy helpers
(`getTowerSellValue`), translated from the TypeScript sources.
Numbers are embedded as rationals (the source uses IEEE doubles; all
quantities the claims touch stay exact in ℚ).  The two genuinely
irrational primitives of the source are handled as follows:

* `Math.atan2` only feeds the stored `aimAngle`; the angle is kept
  symbolically as the pair of its arguments (`Angle.atan2 dy dx`).
  No claim compares angle values.
* `Math.hypot` is only ever (a) compared against a nonnegative bound,
  which is expressed exactly by comparing squares, or (b) used to move
  an in-flight projectile along its direction.  For (b) the square
  root is a parameter `sqrtQ : ℚ → ℚ`; every theorem is proved for an
  arbitrary interpretation, hence in particular for real square root.

The static content tables (`levels.ts` and the full tower table) are
not part of the sources; the engine reads them through pure memoized
lookups, so they appear here as parameters (`towerTypes`, `enemyTypes`,
`waves`, `route`).
-/

namespace TD

/-- JavaScript `Math.round`: round half toward positive infinity. -/
def jsRound (q : ℚ) : ℤ := ⌊q + 1/2⌋

/-- JS array indexing `a[i]` for a possibly out-of-range index. -/
def listGet {α : Type} (l : List α) (i : ℕ) : Option α := l.get? i

/-- `src/game/types.ts` : `Vector2`. -/
structure Vector2 where
  x : ℚ
  y : ℚ
deriving DecidableEq, Repr

/-- `src/game/types.ts` : `Cell`. -/
structure Cell where
  col : ℤ
  row : ℤ
deriving DecidableEq, Repr

inductive EnemyShape
  | circle | square | triangle | diamond | hexagon
deriving DecidableEq, Repr

inductive EnemyTypeId
  | spark | block | spike | crusher | hex
deriving DecidableEq, Repr

inductive TowerTypeId
  | pulse | lance | spray | bomb | cold | laser
deriving DecidableEq, Repr

inductive TargetMode
  | first | last | strong
deriving DecidableEq, Repr

/-- The effect kinds the engine actually constructs (`EFFECT_PRESETS`). -/
inductive EffectKind
  | spawn | hit | place | upgrade | sell | splash | chill
deriving DecidableEq, Repr

/-- `GameEventType = EffectKind | targetMode | fire`, flattened. -/
inductive GameEventType
  | spawn | hit | place | upgrade | sell | splash | chill | targetMode | fire
deriving DecidableEq, Repr

inductive MatchStatus
  | running | won | lost
deriving DecidableEq, Repr

inductive GameMode
  | classic | endless
deriving DecidableEq, Repr

inductive AttackKind
  | projectile | splash | slow | beam
deriving DecidableEq, Repr

/-- A stored tower facing.  The source keeps a float computed by
`Math.atan2` (or the constant `-π/2` default); we keep the defining
data symbolically since no claim inspects the numeric value. -/
inductive Angle
  | defaultAim
  | atan2 (dy dx : ℚ)
deriving DecidableEq, Repr

/-- `src/game/types.ts` : `EnemyType` (static archetype). -/
structure EnemyType where
  id : EnemyTypeId
  label : String
  color : String
  shape : EnemyShape
  radius : ℚ
  maxHealth : ℚ
  speed : ℚ
  reward : ℚ
  coreDamage : ℚ
deriving DecidableEq, Repr

/-- `src/game/types.ts` : `TowerType` (static archetype, modern shape
with `attackKind` and the optional payload fields). -/
structure TowerType where
  id : TowerTypeId
  label : String
  color : String
  attackKind : AttackKind
  range : ℚ
  fireRate : ℚ
  projectileSpeed : ℚ
  damage : ℚ
  cost : ℚ
  radius : ℚ
  projectileRadius : ℚ
  splashRadius : Option ℚ
  slowMultiplier : Option ℚ
  slowDuration : Option ℚ
  beamWidth : Option ℚ
  beamColor : Option String
deriving DecidableEq, Repr

/-- `src/game/types.ts` : `WaveDefinition`. -/
structure WaveDefinition where
  enemyType : EnemyTypeId
  count : ℕ
  spawnInterval : ℚ
  startDelay : Option ℚ
deriving DecidableEq, Repr

/-- `src/game/types.ts` : `Enemy` (live instance). -/
structure Enemy where
  id : String
  enemyType : EnemyTypeId
  shape : EnemyShape
  color : String
  radius : ℚ
  speed : ℚ
  reward : ℚ
  coreDamage : ℚ
  maxHealth : ℚ
  health : ℚ
  progress : ℚ
  position : Vector2
  slowMultiplier : ℚ
  slowTimeRemaining : ℚ
deriving DecidableEq, Repr

/-- `src/game/types.ts` : `Tower` (live instance). -/
structure Tower where
  id : String
  towerType : TowerTypeId
  cell : Cell
  level : ℕ
  targetMode : TargetMode
  cooldown : ℚ
  aimAngle : Angle
deriving DecidableEq, Repr

/-- `src/game/types.ts` : `Projectile`. -/
structure Projectile where
  id : String
  sourceTowerId : String
  towerType : TowerTypeId
  targetEnemyId : String
  damage : ℚ
  speed : ℚ
  radius : ℚ
  color : String
  position : Vector2
  splashRadius : Option ℚ
  slowMultiplier : Option ℚ
  slowDuration : Option ℚ
deriving DecidableEq, Repr

/-- `src/game/types.ts` : `Beam`.  The source field `end` is a Lean
keyword, so the endpoints are named `startPos`/`endPos`. -/
structure Beam where
  id : String
  sourceTowerId : String
  color : String
  width : ℚ
  startPos : Vector2
  endPos : Vector2
deriving DecidableEq, Repr

/-- `src/game/types.ts` : `VisualEffect`. -/
structure VisualEffect where
  id : String
  kind : EffectKind
  position : Vector2
  age : ℚ
  duration : ℚ
  startRadius : ℚ
  endRadius : ℚ
  color : String
deriving DecidableEq, Repr

/-- `src/game/types.ts` : `GameEvent`. -/
structure GameEvent where
  id : ℕ
  type : GameEventType
  towerType : Option TowerTypeId
deriving DecidableEq, Repr

/-- `src/game/types.ts` : `GameState` (modern shape). -/
structure GameState where
  gameMode : GameMode
  mapId : String
  levelId : String
  status : MatchStatus
  elapsed : ℚ
  money : ℚ
  lives : ℚ
  waveIndex : ℕ
  spawnedInWave : ℕ
  timeUntilWaveStart : ℚ
  timeUntilNextSpawn : ℚ
  enemies : List Enemy
  towers : List Tower
  projectiles : List Projectile
  beams : List Beam
  effects : List VisualEffect
  recentEvents : List GameEvent
  nextEnemyId : ℕ
  nextTowerId : ℕ
  nextProjectileId : ℕ
  nextEffectId : ℕ
  nextEventId : ℕ
deriving DecidableEq, Repr

/-! ### Path module, `src/game/path.ts` -/

/-- `cellCenter` : cell `(c,r)` maps to world center `(c+0.5, r+0.5)`. -/
def cellCenter (c : Cell) : Vector2 :=
  { x := (c.col : ℚ) + 1/2, y := (c.row : ℚ) + 1/2 }

/-- `buildPolylineData` output: points, per-segment lengths, total. -/
structure PolylineData where
  points : List Vector2
  segmentLengths : List ℚ
  totalLength : ℚ
deriving DecidableEq, Repr

/-- Euclidean length of an axis-aligned segment.  For points that
share a coordinate (the only ones `buildRoute` accepts) the source
`Math.hypot(dx, dy)` equals `|dx| + |dy|`, which is exact in ℚ. -/
def segLengthAA (a b : Vector2) : ℚ := |b.x - a.x| + |b.y - a.y|

/-- `expandPathCells` throws unless each consecutive waypoint pair is
horizontal or vertical; this is the check, as a Bool. -/
def axisAligned (a b : Cell) : Bool := a.col = b.col || a.row = b.row

def pairsAxisAligned : List Cell → Bool
  | a :: b :: rest => axisAligned a b && pairsAxisAligned (b :: rest)
  | _ => true

def segmentLengthsOf : List Vector2 → List ℚ
  | a :: b :: rest => segLengthAA a b :: segmentLengthsOf (b :: rest)
  | _ => []

/-- Route construction as performed by `loadMap`:
`expandPathCells` (which throws on a non-axis-aligned pair) followed by
`buildPolylineData` (which throws on fewer than 2 waypoints).  The two
fatal configuration errors are modelled as `none`. -/
def buildRoute (waypoints : List Cell) : Option PolylineData :=
  if waypoints.length < 2 then none
  else if !(pairsAxisAligned waypoints) then none
  else
    let pts := waypoints.map cellCenter
    let lens := segmentLengthsOf pts
    some { points := pts, segmentLengths := lens, totalLength := lens.sum }

def zeroV : Vector2 := { x := 0, y := 0 }

/-- Linear interpolation inside one segment, as written in the source:
`from + (to - from) * progress` componentwise. -/
def lerpSeg (a b : Vector2) (t : ℚ) : Vector2 :=
  { x := a.x + (b.x - a.x) * t, y := a.y + (b.y - a.y) * t }

/-- The `for` loop of `samplePolyline`: walk the segments (points and
lengths in lockstep) until the accumulated length reaches `dist`. -/
def sampleSegments : List Vector2 → List ℚ → ℚ → ℚ → Option Vector2
  | p0 :: p1 :: ps, len :: lens, walked, dist =>
    if dist ≤ walked + len then
      some (lerpSeg p0 p1 ((dist - walked) / len))
    else
      sampleSegments (p1 :: ps) lens (walked + len) dist
  | _, _, _, _ => none

/-- `samplePolyline(polyline, distance)` from `src/game/path.ts`. -/
def samplePolyline (poly : PolylineData) (dist : ℚ) : Vector2 :=
  if dist ≤ 0 then poly.points.headD zeroV
  else if poly.totalLength ≤ dist then poly.points.getLastD zeroV
  else
    match sampleSegments poly.points poly.segmentLengths 0 dist with
    | some v => v
    | none => poly.points.getLastD zeroV

/-! ### Config constants, `src/game/config.ts` -/

def INTER_WAVE_DELAY_SECONDS : ℚ := 5/2

def MAX_TOWER_LEVEL : ℕ := 3

def TOWER_LEVEL_RANGE_BONUS : ℚ := 1/10

def TOWER_LEVEL_FIRE_RATE_BONUS : ℚ := 12/100

def TOWER_LEVEL_PROJECTILE_SPEED_BONUS : ℚ := 8/100

def TOWER_LEVEL_DAMAGE_BONUS : ℚ := 45/100

def BEAM_FIRE_EVENT_INTERVAL_SECONDS : ℚ := 12/100

/-! ### Derived tower stats and economy, engine lines 218-258 -/

/-- `getTowerStats` : per-level additive bonuses; damage rounded. -/
def getTowerStats (towerTypes : TowerTypeId → TowerType) (tower : Tower) : TowerType :=
  let baseTowerType := towerTypes tower.towerType
  let levelOffset : ℚ := max 0 ((tower.level : ℚ) - 1)
  { baseTowerType with
    range := baseTowerType.range * (1 + TOWER_LEVEL_RANGE_BONUS * levelOffset)
    fireRate := baseTowerType.fireRate * (1 + TOWER_LEVEL_FIRE_RATE_BONUS * levelOffset)
    projectileSpeed :=
      baseTowerType.projectileSpeed * (1 + TOWER_LEVEL_PROJECTILE_SPEED_BONUS * levelOffset)
    damage := (jsRound (baseTowerType.damage * (1 + TOWER_LEVEL_DAMAGE_BONUS * levelOffset)) : ℚ) }

structure EffectPreset where
  duration : ℚ
  startRadius : ℚ
  endRadius : ℚ
  color : String
deriving DecidableEq, Repr

/-- `EFFECT_PRESETS`. -/
def EFFECT_PRESETS : EffectKind → EffectPreset
  | .spawn => { duration := 45/100, startRadius := 12/100, endRadius := 56/100, color := "#7DEBFF" }
  | .hit => { duration := 22/100, startRadius := 8/100, endRadius := 34/100, color := "#FFD67A" }
  | .place => { duration := 3/10, startRadius := 16/100, endRadius := 45/100, color := "#89FFB8" }
  | .upgrade => { duration := 34/100, startRadius := 16/100, endRadius := 55/100, color := "#8DB8FF" }
  | .sell => { duration := 36/100, startRadius := 2/10, endRadius := 54/100, color := "#FF9B9B" }
  | .splash => { duration := 34/100, startRadius := 2/10, endRadius := 115/100, color := "#FF9C65" }
  | .chill => { duration := 42/100, startRadius := 14/100, endRadius := 78/100, color := "#8EEBFF" }

/-- `createEffect`. -/
def createEffect (kind : EffectKind) (position : Vector2) (nextEffectId : ℕ) : VisualEffect :=
  let preset := EFFECT_PRESETS kind
  { id := "FX" ++ Nat.repr nextEffectId
    kind := kind
    position := position
    age := 0
    duration := preset.duration
    startRadius := preset.startRadius
    endRadius := preset.endRadius
    color := preset.color }

/-- The enemy id format string, `` `E${nextEnemyId}` ``. -/
def enemyIdString (n : ℕ) : String := "E" ++ Nat.repr n

/-- `createEnemy`. -/
def createEnemy (enemyTypes : EnemyTypeId → EnemyType) (enemyTypeId : EnemyTypeId)
    (nextEnemyId : ℕ) (route : PolylineData) : Enemy :=
  let template := enemyTypes enemyTypeId
  { id := enemyIdString nextEnemyId
    enemyType := template.id
    shape := template.shape
    color := template.color
    radius := template.radius
    speed := template.speed
    reward := template.reward
    coreDamage := template.coreDamage
    maxHealth := template.maxHealth
    health := template.maxHealth
    progress := 0
    position := samplePolyline route 0
    slowMultiplier := 1
    slowTimeRemaining := 0 }

/-- `isBetterTarget`. -/
def isBetterTarget (candidate : Enemy) (incumbent : Option Enemy) (targetMode : TargetMode) : Bool :=
  match incumbent with
  | none => true
  | some inc =>
    match targetMode with
    | .first =>
      if candidate.progress ≠ inc.progress then candidate.progress > inc.progress
      else candidate.health > inc.health
    | .last =>
      if candidate.progress ≠ inc.progress then candidate.progress < inc.progress
      else candidate.health > inc.health
    | .strong =>
      if candidate.health ≠ inc.health then candidate.health > inc.health
      else candidate.progress > inc.progress

/-- `selectTarget` : best in-range enemy (squared-distance check). -/
def selectTarget (enemies : List Enemy) (towerCell : Cell) (towerStats : TowerType)
    (targetMode : TargetMode) : Option Enemy :=
  let towerPosition := cellCenter towerCell
  let rangeSquared := towerStats.range * towerStats.range
  enemies.foldl
    (fun bestTarget enemy =>
      let dx := enemy.position.x - towerPosition.x
      let dy := enemy.position.y - towerPosition.y
      if dx * dx + dy * dy > rangeSquared then bestTarget
      else if isBetterTarget enemy bestTarget targetMode then some enemy
      else bestTarget)
    none

/-- The per-tick damage accumulator `damageByEnemy` (a JS `Map` that is
only ever read back pointwise), as a total function with default 0.
`applyDamage` ignores non-positive amounts. -/
def applyDamage (damageByEnemy : String → ℚ) (enemyId : String) (damage : ℚ) : String → ℚ :=
  if damage ≤ 0 then damageByEnemy
  else fun id => if id = enemyId then damageByEnemy enemyId + damage else damageByEnemy id

/-- The per-tick slow accumulator `slowByEnemy`; merging takes the
minimum multiplier and the maximum duration.  Applications with
multiplier outside (0,1) or non-positive duration are ignored. -/
def applySlow (slowByEnemy : String → Option (ℚ × ℚ)) (enemyId : String)
    (multiplier duration : ℚ) : String → Option (ℚ × ℚ) :=
  if multiplier ≤ 0 ∨ 1 ≤ multiplier ∨ duration ≤ 0 then slowByEnemy
  else
    let entry :=
      match slowByEnemy enemyId with
      | none => (multiplier, duration)
      | some existing => (min existing.1 multiplier, max existing.2 duration)
    fun id => if id = enemyId then some entry else slowByEnemy id

/-- `new Map(enemies.map(e => [e.id, e])).get id` : the last enemy in
the list with the given id wins, as with JS `Map.set`. -/
def mapLookup (enemies : List Enemy) (enemyId : String) : Option Enemy :=
  enemies.foldl (fun acc e => if e.id = enemyId then some e else acc) none

/-! ### Spawn phase (engine lines 503-522) -/

structure SpawnAcc where
  enemies : List Enemy
  effects : List VisualEffect
  events : List GameEvent
  nextEnemyId : ℕ
  nextEffectId : ℕ
  nextEventId : ℕ
  spawnedInWave : ℕ
  timeUntilWaveStart : ℚ
  timeUntilNextSpawn : ℚ
deriving DecidableEq, Repr

/-- The spawn `while` loop.  The source loop terminates because each
iteration increments `spawnedInWave`, bounded by `wave.count`; with
`fuel = wave.count - spawnedInWave` the fuel never runs out before the
loop condition turns false, so this is the exact loop. -/
def spawnLoop (enemyTypes : EnemyTypeId → EnemyType) (route : PolylineData)
    (wave : WaveDefinition) : ℕ → SpawnAcc → SpawnAcc
  | 0, acc => acc
  | fuel + 1, acc =>
    if acc.timeUntilNextSpawn ≤ 0 ∧ acc.spawnedInWave < wave.count then
      let newEnemy := createEnemy enemyTypes wave.enemyType acc.nextEnemyId route
      spawnLoop enemyTypes route wave fuel
        { enemies := acc.enemies ++ [newEnemy]
          effects := acc.effects ++ [createEffect .spawn newEnemy.position acc.nextEffectId]
          events := acc.events ++ [{ id := acc.nextEventId, type := .spawn, towerType := none }]
          nextEnemyId := acc.nextEnemyId + 1
          nextEffectId := acc.nextEffectId + 1
          nextEventId := acc.nextEventId + 1
          spawnedInWave := acc.spawnedInWave + 1
          timeUntilWaveStart := acc.timeUntilWaveStart
          timeUntilNextSpawn := acc.timeUntilNextSpawn + wave.spawnInterval }
    else acc

/-- Step 1, spawn resolution: wave start-delay countdown, else the
spawn catch-up loop. -/
def runSpawnPhase (enemyTypes : EnemyTypeId → EnemyType) (waves : List WaveDefinition)
    (route : PolylineData) (state : GameState) (dt : ℚ) : SpawnAcc :=
  let acc0 : SpawnAcc :=
    { enemies := state.enemies
      effects := []
      events := []
      nextEnemyId := state.nextEnemyId
      nextEffectId := state.nextEffectId
      nextEventId := state.nextEventId
      spawnedInWave := state.spawnedInWave
      timeUntilWaveStart := state.timeUntilWaveStart
      timeUntilNextSpawn := state.timeUntilNextSpawn }
  match listGet waves state.waveIndex with
  | none => acc0
  | some currentWave =>
    if 0 < state.timeUntilWaveStart then
      { acc0 with timeUntilWaveStart := max 0 (state.timeUntilWaveStart - dt) }
    else if state.spawnedInWave < currentWave.count then
      spawnLoop enemyTypes route currentWave (currentWave.count - state.spawnedInWave)
        { acc0 with timeUntilNextSpawn := state.timeUntilNextSpawn - dt }
    else acc0

/-! ### Enemy movement (engine lines 524-542) -/

/-- Step 2, enemy movement: decay slow status, advance progress, debit
lives for enemies reaching the core (they are removed), re-derive the
position of survivors.  Returns the moved survivors and the lives
total after all core-damage debits. -/
def moveEnemies (route : PolylineData) (dt : ℚ) : List Enemy → ℚ → List Enemy × ℚ
  | [], lives => ([], lives)
  | enemy :: rest, lives =>
    let nextSlowTimeRemaining := max 0 (enemy.slowTimeRemaining - dt)
    let nextSlowMultiplier := if 0 < nextSlowTimeRemaining then enemy.slowMultiplier else 1
    let nextProgress := enemy.progress + enemy.speed * nextSlowMultiplier * dt
    if route.totalLength ≤ nextProgress then
      moveEnemies route dt rest (lives - enemy.coreDamage)
    else
      let moved := { enemy with
        progress := nextProgress
        position := samplePolyline route nextProgress
        slowMultiplier := nextSlowMultiplier
        slowTimeRemaining := nextSlowTimeRemaining }
      let r := moveEnemies route dt rest lives
      (moved :: r.1, r.2)

/-! ### Tower phase (engine lines 544-634) -/

structure TowerAcc where
  towers : List Tower
  projectiles : List Projectile
  beams : List Beam
  damage : String → ℚ
  events : List GameEvent
  fireEventBudget : ℕ
  nextProjectileId : ℕ
  nextEventId : ℕ

/-- One iteration of the tower loop: cooldown decay, target selection,
aim update, then the beam branch (continuous damage plus a beam record
every tick, throttled fire event) or the projectile branch (spawn one
projectile when off cooldown). -/
def processTower (towerTypes : TowerTypeId → TowerType) (dt : ℚ) (enemies : List Enemy)
    (acc : TowerAcc) (tower : Tower) : TowerAcc :=
  let towerStats := getTowerStats towerTypes tower
  let cooldown := max 0 (tower.cooldown - dt)
  let towerPosition := cellCenter tower.cell
  match selectTarget enemies tower.cell towerStats tower.targetMode with
  | none =>
    { acc with towers := acc.towers ++ [{ tower with cooldown := cooldown }] }
  | some target =>
    let aimAngle := Angle.atan2 (target.position.y - towerPosition.y)
      (target.position.x - towerPosition.x)
    if towerStats.attackKind = AttackKind.beam then
      let beamDamage := towerStats.damage * dt
      let damage := applyDamage acc.damage target.id beamDamage
      let beam : Beam :=
        { id := "B-" ++ tower.id
          sourceTowerId := tower.id
          color := towerStats.beamColor.getD towerStats.color
          width := towerStats.beamWidth.getD (1/10)
          startPos := towerPosition
          endPos := target.position }
      if cooldown ≤ 0 ∧ 0 < acc.fireEventBudget then
        { acc with
          towers := acc.towers ++
            [{ tower with
                cooldown := cooldown + BEAM_FIRE_EVENT_INTERVAL_SECONDS
                aimAngle := aimAngle }]
          beams := acc.beams ++ [beam]
          damage := damage
          events := acc.events ++
            [{ id := acc.nextEventId, type := .fire, towerType := some tower.towerType }]
          fireEventBudget := acc.fireEventBudget - 1
          nextEventId := acc.nextEventId + 1 }
      else
        { acc with
          towers := acc.towers ++ [{ tower with cooldown := cooldown, aimAngle := aimAngle }]
          beams := acc.beams ++ [beam]
          damage := damage }
    else if cooldown ≤ 0 then
      let proj : Projectile :=
        { id := "P" ++ Nat.repr acc.nextProjectileId
          sourceTowerId := tower.id
          towerType := tower.towerType
          targetEnemyId := target.id
          damage := towerStats.damage
          speed := towerStats.projectileSpeed
          radius := towerStats.projectileRadius
          color := towerStats.color
          position := towerPosition
          splashRadius := towerStats.splashRadius
          slowMultiplier := towerStats.slowMultiplier
          slowDuration := towerStats.slowDuration }
      if 0 < acc.fireEventBudget then
        { acc with
          towers := acc.towers ++
            [{ tower with cooldown := cooldown + 1 / towerStats.fireRate, aimAngle := aimAngle }]
          projectiles := acc.projectiles ++ [proj]
          events := acc.events ++
            [{ id := acc.nextEventId, type := .fire, towerType := some tower.towerType }]
          fireEventBudget := acc.fireEventBudget - 1
          nextProjectileId := acc.nextProjectileId + 1
          nextEventId := acc.nextEventId + 1 }
      else
        { acc with
          towers := acc.towers ++
            [{ tower with cooldown := cooldown + 1 / towerStats.fireRate, aimAngle := aimAngle }]
          projectiles := acc.projectiles ++ [proj]
          nextProjectileId := acc.nextProjectileId + 1 }
    else
      { acc with towers := acc.towers ++ [{ tower with cooldown := cooldown, aimAngle := aimAngle }] }

/-- Step 3, the tower loop. -/
def runTowerPhase (towerTypes : TowerTypeId → TowerType) (dt : ℚ) (enemies : List Enemy)
    (towers : List Tower) (acc : TowerAcc) : TowerAcc :=
  towers.foldl (processTower towerTypes dt enemies) acc

/-! ### Projectile phase (engine lines 636-704) -/

structure ProjAcc where
  projectiles : List Projectile
  hitEffects : List VisualEffect
  damage : String → ℚ
  slow : String → Option (ℚ × ℚ)
  events : List GameEvent
  hitEventBudget : ℕ
  impactEffectBudget : ℕ
  nextEffectId : ℕ
  nextEventId : ℕ

/-- Squared distance between two points; `Math.hypot(dx,dy) ≤ r` with
`0 ≤ r` is exactly `dist2 ≤ r * r`. -/
def dist2 (a b : Vector2) : ℚ :=
  (b.x - a.x) * (b.x - a.x) + (b.y - a.y) * (b.y - a.y)

/-- The impact test `distance <= travel || distance === 0`, written
without a square root (`distance = Math.hypot dx dy` is nonnegative, so
`distance ≤ travel` is `0 ≤ travel ∧ distance² ≤ travel²`). -/
def impacts (p : Projectile) (target : Enemy) (dt : ℚ) : Prop :=
  (0 ≤ p.speed * dt ∧ dist2 p.position target.position ≤ (p.speed * dt) * (p.speed * dt))
    ∨ dist2 p.position target.position = 0

instance (p : Projectile) (target : Enemy) (dt : ℚ) : Decidable (impacts p target dt) := by
  unfold impacts; infer_instance

/-- `projectile.slowMultiplier !== undefined && projectile.slowDuration
!== undefined && projectile.slowDuration > 0`. -/
def slowPayloadActive (p : Projectile) : Bool :=
  p.slowMultiplier.isSome &&
    (match p.slowDuration with | some d => decide (0 < d) | none => false)

/-- `projectile.splashRadius && projectile.splashRadius > 0`. -/
def splashActive (p : Projectile) : Bool :=
  match p.splashRadius with | some r => decide (0 < r) | none => false

/-- The enemies hit by an impacting projectile: all enemies within
splash radius of the impact point for an active splash payload, the
locked target alone otherwise. -/
def impactedEnemies (p : Projectile) (target : Enemy) (enemies : List Enemy) : List Enemy :=
  match p.splashRadius with
  | some r =>
    if 0 < r then
      enemies.filter (fun e => dist2 target.position e.position ≤ r * r)
    else [target]
  | none => [target]

/-- One iteration of the projectile loop: drop the projectile silently
when the target vanished, resolve the impact (damage plus optional slow
to every impacted enemy, budget-capped effect and hit event) when it
reaches the target this tick, otherwise advance it linearly.  `sqrtQ`
interprets `Math.hypot` for the in-flight advance. -/
def processProjectile (sqrtQ : ℚ → ℚ) (dt : ℚ) (enemies : List Enemy)
    (acc : ProjAcc) (p : Projectile) : ProjAcc :=
  match mapLookup enemies p.targetEnemyId with
  | none => acc
  | some target =>
    if impacts p target dt then
      let impactPosition := target.position
      let impacted := impactedEnemies p target enemies
      let damage := impacted.foldl (fun m e => applyDamage m e.id p.damage) acc.damage
      let slow :=
        if slowPayloadActive p then
          impacted.foldl
            (fun m e => applySlow m e.id (p.slowMultiplier.getD 1) (p.slowDuration.getD 0))
            acc.slow
        else acc.slow
      let effectPart :=
        if 0 < acc.impactEffectBudget then
          let kind : EffectKind :=
            if splashActive p then .splash
            else if slowPayloadActive p then .chill
            else .hit
          (acc.hitEffects ++ [createEffect kind impactPosition acc.nextEffectId],
            acc.nextEffectId + 1, acc.impactEffectBudget - 1)
        else (acc.hitEffects, acc.nextEffectId, acc.impactEffectBudget)
      let eventPart :=
        if 0 < acc.hitEventBudget then
          (acc.events ++ [{ id := acc.nextEventId, type := .hit, towerType := some p.towerType }],
            acc.nextEventId + 1, acc.hitEventBudget - 1)
        else (acc.events, acc.nextEventId, acc.hitEventBudget)
      { projectiles := acc.projectiles
        hitEffects := effectPart.1
        damage := damage
        slow := slow
        events := eventPart.1
        hitEventBudget := eventPart.2.2
        impactEffectBudget := effectPart.2.2
        nextEffectId := effectPart.2.1
        nextEventId := eventPart.2.1 }
    else
      let dx := target.position.x - p.position.x
      let dy := target.position.y - p.position.y
      let distance := sqrtQ (dist2 p.position target.position)
      let travel := p.speed * dt
      { acc with projectiles := acc.projectiles ++
          [{ p with position :=
            { x := p.position.x + dx / distance * travel
              y := p.position.y + dy / distance * travel } }] }

/-- Step 4, the projectile loop (previous projectiles then the ones
spawned this tick). -/
def runProjectilePhase (sqrtQ : ℚ → ℚ) (dt : ℚ) (enemies : List Enemy)
    (projectiles : List Projectile) (acc : ProjAcc) : ProjAcc :=
  projectiles.foldl (processProjectile sqrtQ dt enemies) acc

/-! ### Damage resolution and death (engine lines 706-743) -/

/-- Merge of the accumulated slow status into a surviving enemy:
minimum multiplier while a previous slow is still active, maximum
remaining time. -/
def mergeSlowStatus (entry : Option (ℚ × ℚ)) (e : Enemy) : Enemy :=
  match entry with
  | none => e
  | some slowStatus =>
    { e with
      slowMultiplier :=
        if 0 < e.slowTimeRemaining then min e.slowMultiplier slowStatus.1 else slowStatus.1
      slowTimeRemaining := max e.slowTimeRemaining slowStatus.2 }

/-- Step 6: apply the per-enemy damage totals; dead enemies credit
their reward, survivors get updated health and merged slow status. -/
def resolveEnemies (damage : String → ℚ) (slow : String → Option (ℚ × ℚ)) :
    List Enemy → ℚ → List Enemy × ℚ
  | [], money => ([], money)
  | enemy :: rest, money =>
    let dmg := damage enemy.id
    if 0 < dmg ∧ enemy.health - dmg ≤ 0 then
      resolveEnemies damage slow rest (money + enemy.reward)
    else
      let e1 := if 0 < dmg then { enemy with health := enemy.health - dmg } else enemy
      let e2 := mergeSlowStatus (slow enemy.id) e1
      let r := resolveEnemies damage slow rest money
      (e2 :: r.1, r.2)

/-! ### Loss check, wave advancement, win check (engine lines 745-766) -/

structure EndgameResult where
  status : MatchStatus
  lives : ℚ
  waveIndex : ℕ
  spawnedInWave : ℕ
  timeUntilWaveStart : ℚ
  timeUntilNextSpawn : ℚ
deriving DecidableEq, Repr

structure WaveAdv where
  waveIndex : ℕ
  spawnedInWave : ℕ
  timeUntilWaveStart : ℚ
  timeUntilNextSpawn : ℚ
deriving DecidableEq, Repr

/-- Step 8, wave advancement (only reached when not lost this tick). -/
def advanceWave (waves : List WaveDefinition) (waveIndex spawnedInWave : ℕ)
    (timeUntilWaveStart timeUntilNextSpawn : ℚ) (enemies : List Enemy) : WaveAdv :=
  match listGet waves waveIndex with
  | some activeWave =>
    if activeWave.count ≤ spawnedInWave ∧ enemies.length = 0 then
      let nextIndex := waveIndex + 1
      let nextStart :=
        match listGet waves nextIndex with
        | some nextWave => INTER_WAVE_DELAY_SECONDS + nextWave.startDelay.getD 0
        | none => 0
      { waveIndex := nextIndex, spawnedInWave := 0,
        timeUntilWaveStart := nextStart, timeUntilNextSpawn := 0 }
    else
      { waveIndex := waveIndex, spawnedInWave := spawnedInWave,
        timeUntilWaveStart := timeUntilWaveStart, timeUntilNextSpawn := timeUntilNextSpawn }
  | none =>
    { waveIndex := waveIndex, spawnedInWave := spawnedInWave,
      timeUntilWaveStart := timeUntilWaveStart, timeUntilNextSpawn := timeUntilNextSpawn }

/-- Steps 7-8: the loss check takes precedence; wave advancement and
the win check run only when not lost this tick. -/
def resolveEndgame (waves : List WaveDefinition) (lives : ℚ) (waveIndex spawnedInWave : ℕ)
    (timeUntilWaveStart timeUntilNextSpawn : ℚ) (enemies : List Enemy) : EndgameResult :=
  if lives ≤ 0 then
    { status := .lost, lives := 0, waveIndex := waveIndex, spawnedInWave := spawnedInWave,
      timeUntilWaveStart := timeUntilWaveStart, timeUntilNextSpawn := timeUntilNextSpawn }
  else
    let adv := advanceWave waves waveIndex spawnedInWave timeUntilWaveStart
      timeUntilNextSpawn enemies
    let status :=
      if waves.length ≤ adv.waveIndex ∧ enemies.length = 0 then MatchStatus.won
      else MatchStatus.running
    { status := status, lives := lives, waveIndex := adv.waveIndex,
      spawnedInWave := adv.spawnedInWave, timeUntilWaveStart := adv.timeUntilWaveStart,
      timeUntilNextSpawn := adv.timeUntilNextSpawn }

/-- Step 9, effect aging: age everything by dt and prune expired. -/
def ageEffects (dt : ℚ) (effects : List VisualEffect) : List VisualEffect :=
  (effects.map (fun effect => { effect with age := effect.age + dt })).filter
    (fun effect => effect.age < effect.duration)

/-- The body of `tickGame` once the running/positive-dt guards have
passed, composing the phases in source order. -/
def tickGameRun (towerTypes : TowerTypeId → TowerType) (enemyTypes : EnemyTypeId → EnemyType)
    (waves : List WaveDefinition) (route : PolylineData) (sqrtQ : ℚ → ℚ)
    (state : GameState) (dt : ℚ) : GameState :=
  let sp := runSpawnPhase enemyTypes waves route state dt
  let mv := moveEnemies route dt sp.enemies state.lives
  let tp := runTowerPhase towerTypes dt mv.1 state.towers
    { towers := []
      projectiles := []
      beams := []
      damage := fun _ => 0
      events := sp.events
      fireEventBudget := 4
      nextProjectileId := state.nextProjectileId
      nextEventId := sp.nextEventId }
  let pp := runProjectilePhase sqrtQ dt mv.1 (state.projectiles ++ tp.projectiles)
    { projectiles := []
      hitEffects := []
      damage := tp.damage
      slow := fun _ => none
      events := tp.events
      hitEventBudget := 3
      impactEffectBudget := 8
      nextEffectId := sp.nextEffectId
      nextEventId := tp.nextEventId }
  let rs := resolveEnemies pp.damage pp.slow mv.1 state.money
  let eg := resolveEndgame waves mv.2 state.waveIndex sp.spawnedInWave
    sp.timeUntilWaveStart sp.timeUntilNextSpawn rs.1
  { state with
    status := eg.status
    elapsed := state.elapsed + dt
    money := rs.2
    lives := eg.lives
    waveIndex := eg.waveIndex
    spawnedInWave := eg.spawnedInWave
    timeUntilWaveStart := eg.timeUntilWaveStart
    timeUntilNextSpawn := eg.timeUntilNextSpawn
    enemies := rs.1
    towers := tp.towers
    projectiles := pp.projectiles
    beams := tp.beams
    effects := ageEffects dt (state.effects ++ sp.effects ++ pp.hitEffects)
    recentEvents := pp.events
    nextEnemyId := sp.nextEnemyId
    nextProjectileId := tp.nextProjectileId
    nextEffectId := pp.nextEffectId
    nextEventId := pp.nextEventId }

/-- `tickGame(state, deltaSeconds)` : no-op unless running with a
positive delta, else one full simulation step. -/
def tickGame (towerTypes : TowerTypeId → TowerType) (enemyTypes : EnemyTypeId → EnemyType)
    (waves : List WaveDefinition) (route : PolylineData) (sqrtQ : ℚ → ℚ)
    (state : GameState) (deltaSeconds : ℚ) : GameState :=
  if state.status = MatchStatus.running then
    if max 0 deltaSeconds = 0 then state
    else tickGameRun towerTypes enemyTypes waves route sqrtQ state (max 0 deltaSeconds)
  else state

/-! ### Specification-side definitions (for refinement statements) -/

/-- The beam record a beam tower with target `tgt` pushes this tick. -/
def beamRecordOf (towerTypes : TowerTypeId → TowerType) (tower : Tower) (tgt : Enemy) : Beam :=
  { id := "B-" ++ tower.id
    sourceTowerId := tower.id
    color := (getTowerStats towerTypes tower).beamColor.getD
      (getTowerStats towerTypes tower).color
    width := (getTowerStats towerTypes tower).beamWidth.getD (1/10)
    startPos := cellCenter tower.cell
    endPos := tgt.position }

/-- Written from the spec wording, to compare with the tower loop: the
single beam record a beam-kind tower with a live target contributes to
this tick, independent of cooldown and budgets. -/
def beamFor (towerTypes : TowerTypeId → TowerType) (enemies : List Enemy)
    (tower : Tower) : Option Beam :=
  let towerStats := getTowerStats towerTypes tower
  if towerStats.attackKind = AttackKind.beam then
    match selectTarget enemies tower.cell towerStats tower.targetMode with
    | some target =>
      some
        { id := "B-" ++ tower.id
          sourceTowerId := tower.id
          color := towerStats.beamColor.getD towerStats.color
          width := towerStats.beamWidth.getD (1/10)
          startPos := cellCenter tower.cell
          endPos := target.position }
    | none => none
  else none

/-! ### Decimal representation helpers

`Nat.repr` injectivity, needed for distinctness of the generated
entity id strings `E1`, `E2`, ... -/

/-- The decimal digits of `n`, most significant first. -/
def decDigits (n : ℕ) : List ℕ :=
  if n < 10 then [n]
  else decDigits (n / 10) ++ [n % 10]
termination_by n
decreasing_by exact Nat.div_lt_self (by omega) (by omega)

/-- Numeric value of a digit character (inverse of `Nat.digitChar` on
decimal digits). -/
def digitVal : Char → ℕ
  | '1' => 1
  | '2' => 2
  | '3' => 3
  | '4' => 4
  | '5' => 5
  | '6' => 6
  | '7' => 7
  | '8' => 8
  | '9' => 9
  | _ => 0

/-! ### Concrete fixtures (used by witnesses and counterexamples) -/

/-- The `spark` archetype of `ENEMY_TYPES` in `src/game/config.ts`. -/
def sparkType : EnemyType :=
  { id := .spark, label := "Spark", color := "#6DEBFF", shape := .circle, radius := 24/100,
    maxHealth := 24, speed := 3/2, reward := 10, coreDamage := 1 }

/-- Fixture enemy table: every id resolves to the spark archetype. -/
def wEnemyTypes : EnemyTypeId → EnemyType := fun _ => sparkType

/-- Fixture route: the polyline of waypoints `(0,0)` and `(3,0)`
(total length 3).  Equals `buildRoute` on those waypoints. -/
def wRoute : PolylineData :=
  { points := [{ x := 1/2, y := 1/2 }, { x := 7/2, y := 1/2 }]
    segmentLengths := [3]
    totalLength := 3 }

/-- The `pulse` archetype of `TOWER_TYPES` in `src/game/config.ts`,
with the `projectile` attack kind. -/
def pulseType : TowerType :=
  { id := .pulse, label := "Pulse", color := "#67F4A5", attackKind := .projectile, range := 23/10,
    fireRate := 27/20, projectileSpeed := 7, damage := 16, cost := 55, radius := 28/100,
    projectileRadius := 11/100, splashRadius := none, slowMultiplier := none, slowDuration := none,
    beamWidth := none, beamColor := none }

/-- Fixture beam-kind tower archetype. -/
def laserType : TowerType :=
  { id := .laser, label := "Laser", color := "#FF5A5A", attackKind := .beam, range := 3,
    fireRate := 2, projectileSpeed := 0, damage := 10, cost := 90, radius := 3/10,
    projectileRadius := 1/10, splashRadius := none, slowMultiplier := none, slowDuration := none,
    beamWidth := some (12/100), beamColor := some "#FFB3B3" }

/-- Fixture tower tables. -/
def wTowerTypes : TowerTypeId → TowerType := fun _ => pulseType

def wBeamTowerTypes : TowerTypeId → TowerType := fun _ => laserType

/-- A fresh running state on the fixture route with no entities. -/
def baseState : GameState :=
  { gameMode := .classic, mapId := "relay", levelId := "L1", status := .running, elapsed := 0,
    money := 160, lives := 20, waveIndex := 0, spawnedInWave := 0, timeUntilWaveStart := 0,
    timeUntilNextSpawn := 0, enemies := [], towers := [], projectiles := [], beams := [],
    effects := [], recentEvents := [], nextEnemyId := 1, nextTowerId := 1, nextProjectileId := 1,
    nextEffectId := 1, nextEventId := 1 }

/-- Claim C3 wave: `spawnInterval = 0.1`, `count = 10`. -/
def burstWave : WaveDefinition :=
  { enemyType := .spark, count := 10, spawnInterval := 1/10, startDelay := none }

/-- An enemy about to reach the core of `wRoute` (claim C1 witness):
progress 2.5, speed 1, core damage 2. -/
def dyingEnemy : Enemy :=
  { id := "E1", enemyType := .spark, shape := .circle, color := "#6DEBFF", radius := 24/100,
    speed := 1, reward := 10, coreDamage := 2, maxHealth := 24, health := 24, progress := 5/2,
    position := { x := 3, y := 1/2 }, slowMultiplier := 1, slowTimeRemaining := 0 }

/-- Claim C1 witness state: one life, one enemy about to deal 2 core
damage. -/
def c1State : GameState := { baseState with lives := 1, enemies := [dyingEnemy] }

/-- Claim C10 witness: the first burst-spawned spark, as it must
appear after moving by its full `speed × dt = 1.5 × 1`. -/
def c10MovedEnemy : Enemy :=
  { createEnemy wEnemyTypes EnemyTypeId.spark 1 wRoute with
      progress := 3/2
      position := samplePolyline wRoute (3/2) }

/-- Claim C4 counterexample fixture: an enemy that already carries a
residual slow (multiplier 0.2, 10 seconds remaining) from an earlier
tick.  Speed 0 keeps it at route distance 1 (world position
`(1.5, 0.5)` on `wRoute`). -/
def slowedEnemy : Enemy :=
  { id := "E1", enemyType := .spark, shape := .circle, color := "#6DEBFF", radius := 24/100,
    speed := 0, reward := 10, coreDamage := 1, maxHealth := 100, health := 100, progress := 1,
    position := { x := 3/2, y := 1/2 }, slowMultiplier := 1/5, slowTimeRemaining := 10 }

/-- A slow-payload projectile sitting on its target (distance 0, so it
impacts this tick). -/
def slowProj (pid : String) (m d : ℚ) : Projectile :=
  { id := pid, sourceTowerId := "T1", towerType := .cold, targetEnemyId := "E1", damage := 1,
    speed := 1, radius := 1/10, color := "#8EEBFF", position := { x := 3/2, y := 1/2 },
    splashRadius := none, slowMultiplier := some m, slowDuration := some d }

/-- Claim C4 counterexample state: the residually-slowed enemy hit by
two slow applications (0.6 for 2s and 0.4 for 1s) in one tick. -/
def c4State : GameState :=
  { baseState with
      enemies := [slowedEnemy]
      projectiles := [slowProj "P1" (3/5) 2, slowProj "P2" (2/5) 1] }

/-- Claim C5 witness enemies: target A at `(1.5, 0.5)`, B at distance
0.5 (inside splash radius 1.1), C at distance 1.5 (outside). -/
def enemyA : Enemy := { slowedEnemy with id := "EA", slowMultiplier := 1, slowTimeRemaining := 0 }

def enemyB : Enemy := { enemyA with id := "EB", position := { x := 2, y := 1/2 } }

def enemyC : Enemy := { enemyA with id := "EC", position := { x := 3, y := 1/2 } }

/-- Claim C5 witness projectile: splash radius 1.1, damage 5, sitting
on its locked target A. -/
def splashProj : Projectile :=
  { id := "P1", sourceTowerId := "T1", towerType := .bomb, targetEnemyId := "EA", damage := 5,
    speed := 1, radius := 1/10, color := "#FF9C65", position := { x := 3/2, y := 1/2 },
    splashRadius := some (11/10), slowMultiplier := none, slowDuration := none }

/-- An empty projectile-phase accumulator over a zero damage map. -/
def emptyProjAcc : ProjAcc :=
  { projectiles := [], hitEffects := [], damage := fun _ => 0, slow := fun _ => none,
    events := [], hitEventBudget := 3, impactEffectBudget := 8, nextEffectId := 1,
    nextEventId := 1 }

/-- Claim C6 witness tower: a beam (laser) tower whose cell center
coincides with the witness target position. -/
def beamTower : Tower :=
  { id := "T1", towerType := .laser, cell := { col := 1, row := 0 }, level := 1,
    targetMode := .first, cooldown := 0, aimAngle := .defaultAim }

/-- An empty tower-phase accumulator over a zero damage map. -/
def emptyTowerAcc : TowerAcc :=
  { towers := [], projectiles := [], beams := [], damage := fun _ => 0, events := [],
    fireEventBudget := 4, nextProjectileId := 1, nextEventId := 1 }

/-! ### Lemmas: decimal representation and id distinctness -/

lemma decDigits_ne_nil (n : ℕ) : decDigits n ≠ [] := by
  unfold decDigits
  split <;> simp

lemma decDigits_lt (n : ℕ) : ∀ d ∈ decDigits n, d < 10 := by
  induction n using Nat.strong_induction_on with
  | _ n ih =>
    unfold decDigits
    split
    · next h => intro d hd; simp only [List.mem_singleton] at hd; omega
    · next h =>
      intro d hd
      rw [List.mem_append] at hd
      rcases hd with hd | hd
      · exact ih (n / 10) (Nat.div_lt_self (by omega) (by omega)) d hd
      · simp only [List.mem_singleton] at hd
        subst hd
        exact Nat.mod_lt _ (by omega)

lemma decDigits_of_lt {n : ℕ} (h : n < 10) : decDigits n = [n] := by
  rw [decDigits, if_pos h]

lemma decDigits_of_ge {n : ℕ} (h : ¬ n < 10) :
    decDigits n = decDigits (n / 10) ++ [n % 10] := by
  rw [decDigits]
  rw [if_neg h]

lemma decDigits_injective : ∀ m n : ℕ, decDigits m = decDigits n → m = n := by
  intro m
  induction m using Nat.strong_induction_on with
  | _ m ih =>
    intro n h
    by_cases hm : m < 10 <;> by_cases hn : n < 10
    · rw [decDigits_of_lt hm, decDigits_of_lt hn] at h
      simpa using h
    · rw [decDigits_of_lt hm, decDigits_of_ge hn] at h
      have hlen : (1 : ℕ) = (decDigits (n / 10)).length + 1 := by
        simpa using congrArg List.length h
      have hpos := List.length_pos.2 (decDigits_ne_nil (n / 10))
      omega
    · rw [decDigits_of_ge hm, decDigits_of_lt hn] at h
      have hlen : (decDigits (m / 10)).length + 1 = 1 := by
        simpa using congrArg List.length h
      have hpos := List.length_pos.2 (decDigits_ne_nil (m / 10))
      omega
    · rw [decDigits_of_ge hm, decDigits_of_ge hn] at h
      have hsplit := List.append_inj' h (by simp)
      have h1 : m / 10 = n / 10 :=
        ih (m / 10) (Nat.div_lt_self (by omega) (by omega)) (n / 10) hsplit.1
      have h2 : m % 10 = n % 10 := by simpa using hsplit.2
      omega

lemma digitVal_digitChar (d : ℕ) (h : d < 10) : digitVal (Nat.digitChar d) = d := by
  interval_cases d <;> decide

lemma digitChar_inj_on (a b : ℕ) (ha : a < 10) (hb : b < 10)
    (h : Nat.digitChar a = Nat.digitChar b) : a = b := by
  have := congrArg digitVal h
  rwa [digitVal_digitChar a ha, digitVal_digitChar b hb] at this

lemma map_digitChar_inj : ∀ l1 l2 : List ℕ, (∀ d ∈ l1, d < 10) → (∀ d ∈ l2, d < 10) →
    l1.map Nat.digitChar = l2.map Nat.digitChar → l1 = l2 := by
  intro l1
  induction l1 with
  | nil => intro l2 _ _ h; cases l2 <;> simp_all
  | cons a l ih =>
    intro l2 h1 h2 h
    cases l2 with
    | nil => simp at h
    | cons b l2' =>
      simp only [List.map_cons, List.cons.injEq] at h
      have ha : a < 10 := h1 a (by simp)
      have hb : b < 10 := h2 b (by simp)
      have hab := digitChar_inj_on a b ha hb h.1
      have htl := ih l2' (fun d hd => h1 d (by simp [hd])) (fun d hd => h2 d (by simp [hd])) h.2
      rw [hab, htl]

lemma toDigitsCore_eq (fuel : ℕ) : ∀ (n : ℕ) (ds : List Char), n < fuel →
    Nat.toDigitsCore 10 fuel n ds = (decDigits n).map Nat.digitChar ++ ds := by
  induction fuel with
  | zero => intro n ds h; omega
  | succ fuel ih =>
    intro n ds h
    simp only [Nat.toDigitsCore]
    by_cases h10 : n / 10 = 0
    · have hn : n < 10 := by
        rcases Nat.lt_or_ge n 10 with h' | h'
        · exact h'
        · exfalso; have := Nat.div_le_div_right (c := 10) h'; simp at this; omega
      rw [if_pos h10, decDigits_of_lt hn, Nat.mod_eq_of_lt hn]
      simp
    · have hge : ¬ n < 10 := fun hlt => h10 (Nat.div_eq_of_lt hlt)
      rw [if_neg h10]
      have hfuel : n / 10 < fuel := by
        have hd : n / 10 < n := Nat.div_lt_self (by omega) (by omega)
        omega
      rw [ih (n / 10) _ hfuel, decDigits_of_ge hge]
      simp

lemma repr_injective : Function.Injective Nat.repr := by
  intro m n h
  unfold Nat.repr Nat.toDigits at h
  rw [toDigitsCore_eq (m + 1) m [] (by omega), toDigitsCore_eq (n + 1) n [] (by omega)] at h
  simp only [List.append_nil, List.asString] at h
  have hdata := congrArg String.data h
  exact decDigits_injective m n
    (map_digitChar_inj _ _ (decDigits_lt m) (decDigits_lt n) hdata)

lemma string_append_left_cancel (p s t : String) (h : p ++ s = p ++ t) : s = t := by
  cases p with
  | mk pd =>
    cases s with
    | mk sd =>
      cases t with
      | mk td =>
        have hd : pd ++ sd = pd ++ td := by
          have := congrArg String.data h
          simpa [String.data] using this
        have := List.append_cancel_left hd
        simp [this]

lemma enemyIdString_injective : Function.Injective enemyIdString := by
  intro m n h
  exact repr_injective (string_append_left_cancel "E" _ _ h)

/-! ### Claim C2 -/

/-- Claim C2: `tickGame` is the identity outside its running
precondition.  For a state whose status is `won` or `lost` and any dt,
the input state is returned unchanged; likewise for any state when
`dt ≤ 0`; consequently repeated ticks from a terminal state return the
same state. -/
theorem c2_terminal_noop (towerTypes : TowerTypeId → TowerType)
    (enemyTypes : EnemyTypeId → EnemyType) (waves : List WaveDefinition)
    (route : PolylineData) (sqrtQ : ℚ → ℚ) (s : GameState) (dt : ℚ) :
    ((s.status = MatchStatus.won ∨ s.status = MatchStatus.lost) →
      tickGame towerTypes enemyTypes waves route sqrtQ s dt = s)
    ∧ (dt ≤ 0 → tickGame towerTypes enemyTypes waves route sqrtQ s dt = s)
    ∧ ((s.status = MatchStatus.won ∨ s.status = MatchStatus.lost) → ∀ dt2 : ℚ,
      tickGame towerTypes enemyTypes waves route sqrtQ
        (tickGame towerTypes enemyTypes waves route sqrtQ s dt) dt2 = s) := by
  have hterm : (s.status = MatchStatus.won ∨ s.status = MatchStatus.lost) →
      tickGame towerTypes enemyTypes waves route sqrtQ s dt = s := by
    intro h
    have hne : ¬ s.status = MatchStatus.running := by
      rcases h with h | h <;> rw [h] <;> intro hc <;> exact MatchStatus.noConfusion hc
    rw [tickGame, if_neg hne]
  refine ⟨hterm, ?_, ?_⟩
  · intro h
    have hmax : max 0 dt = 0 := max_eq_left h
    rw [tickGame, hmax]
    split <;> rfl
  · intro h dt2
    rw [hterm h]
    have hne : ¬ s.status = MatchStatus.running := by
      rcases h with h | h <;> rw [h] <;> intro hc <;> exact MatchStatus.noConfusion hc
    rw [tickGame, if_neg hne]

/-- Closed witness for C2 at a concrete terminal state. -/
theorem c2_terminal_noop_witness :
    tickGame wTowerTypes wEnemyTypes [burstWave] wRoute (fun _ => 0)
      { baseState with status := MatchStatus.won } 1
      = { baseState with status := MatchStatus.won } :=
  (c2_terminal_noop wTowerTypes wEnemyTypes [burstWave] wRoute (fun _ => 0)
    { baseState with status := MatchStatus.won } 1).1 (Or.inl rfl)

/-! ### Claim C7 -/

lemma segLengthAA_nonneg (a b : Vector2) : 0 ≤ segLengthAA a b :=
  add_nonneg (abs_nonneg _) (abs_nonneg _)

lemma segLengthAA_eq_zero {a b : Vector2} (h : segLengthAA a b = 0) : a = b := by
  unfold segLengthAA at h
  have hx : |b.x - a.x| = 0 :=
    le_antisymm (by linarith [abs_nonneg (b.y - a.y)]) (abs_nonneg _)
  have hy : |b.y - a.y| = 0 :=
    le_antisymm (by linarith [abs_nonneg (b.x - a.x)]) (abs_nonneg _)
  rw [abs_eq_zero, sub_eq_zero] at hx hy
  cases a; cases b; simp_all

lemma segmentLengthsOf_nonneg : ∀ pts : List Vector2, ∀ x ∈ segmentLengthsOf pts, 0 ≤ x := by
  intro pts
  induction pts with
  | nil => simp [segmentLengthsOf]
  | cons a rest ih =>
    cases rest with
    | nil => simp [segmentLengthsOf]
    | cons b rest2 =>
      intro x hx
      rw [segmentLengthsOf] at hx
      rcases List.mem_cons.1 hx with hx | hx
      · rw [hx]; exact segLengthAA_nonneg a b
      · exact ih x hx

lemma segmentLengthsOf_length : ∀ pts : List Vector2,
    (segmentLengthsOf pts).length = pts.length - 1 := by
  intro pts
  induction pts with
  | nil => rfl
  | cons a rest ih =>
    cases rest with
    | nil => rfl
    | cons b rest2 =>
      rw [segmentLengthsOf]
      simp only [List.length_cons] at ih ⊢
      omega

lemma degenerate_head_last : ∀ pts : List Vector2, (segmentLengthsOf pts).sum = 0 →
    pts.headD zeroV = pts.getLastD zeroV := by
  intro pts
  induction pts with
  | nil => intro _; rfl
  | cons a rest ih =>
    cases rest with
    | nil => intro _; rfl
    | cons b rest2 =>
      intro hsum
      rw [segmentLengthsOf, List.sum_cons] at hsum
      have h1 : 0 ≤ segLengthAA a b := segLengthAA_nonneg a b
      have h2 : 0 ≤ (segmentLengthsOf (b :: rest2)).sum :=
        List.sum_nonneg (segmentLengthsOf_nonneg (b :: rest2))
      have hab : a = b := segLengthAA_eq_zero (by linarith)
      have htl : (segmentLengthsOf (b :: rest2)).sum = 0 := by linarith
      calc (a :: b :: rest2).headD zeroV = a := rfl
    _ = (b :: rest2).headD zeroV := by rw [hab]; rfl
    _ = (b :: rest2).getLastD zeroV := ih htl
    _ = (a :: b :: rest2).getLastD zeroV := by simp [List.getLastD_cons]

lemma headD_map_cellCenter : ∀ ws : List Cell, ws ≠ [] →
    (ws.map cellCenter).headD zeroV = cellCenter (ws.headD { col := 0, row := 0 }) := by
  intro ws h
  cases ws with
  | nil => exact absurd rfl h
  | cons a rest => rfl

lemma getLastD_map_cellCenter : ∀ ws : List Cell, ws ≠ [] →
    (ws.map cellCenter).getLastD zeroV = cellCenter (ws.getLastD { col := 0, row := 0 }) := by
  intro ws
  induction ws with
  | nil => intro h; exact absurd rfl h
  | cons a rest ih =>
    intro _
    cases rest with
    | nil => rfl
    | cons b rest2 =>
      rw [List.map_cons, List.getLastD_cons, List.getLastD_cons]
      exact ih (by simp)

lemma sampleSegments_cons (p0 p1 : Vector2) (ps : List Vector2) (len : ℚ) (rest : List ℚ)
    (walked d : ℚ) :
    sampleSegments (p0 :: p1 :: ps) (len :: rest) walked d =
      if d ≤ walked + len then some (lerpSeg p0 p1 ((d - walked) / len))
      else sampleSegments (p1 :: ps) rest (walked + len) d := rfl

lemma sampleSegments_finds :
    ∀ (lens : List ℚ) (pts : List Vector2) (walked d : ℚ),
      pts.length = lens.length + 1 →
      walked < d → d ≤ walked + lens.sum →
      ∃ i, i < lens.length ∧
        walked + (lens.take i).sum < d ∧
        d ≤ walked + (lens.take (i + 1)).sum ∧
        sampleSegments pts lens walked d =
          some (lerpSeg (pts.getD i zeroV) (pts.getD (i + 1) zeroV)
            ((d - (walked + (lens.take i).sum)) / lens.getD i 0)) := by
  intro lens
  induction lens with
  | nil =>
    intro pts walked d _ h1 h2
    simp only [List.sum_nil, add_zero] at h2
    exact absurd (lt_of_lt_of_le h1 h2) (lt_irrefl walked)
  | cons len rest ih =>
    intro pts walked d hlen h1 h2
    cases pts with
    | nil => simp at hlen
    | cons p0 pts' =>
      cases pts' with
      | nil => simp at hlen
      | cons p1 ps =>
        by_cases hc : d ≤ walked + len
        · refine ⟨0, by simp, ?_, ?_, ?_⟩
          · simpa using h1
          · simpa using hc
          · rw [sampleSegments_cons, if_pos hc]
            simp
        · push_neg at hc
          have hlen' : (p1 :: ps).length = rest.length + 1 := by
            simpa using hlen
          have h2' : d ≤ (walked + len) + rest.sum := by
            rw [List.sum_cons] at h2
            linarith
          obtain ⟨i, hi, hlo, hhi, heq⟩ := ih (p1 :: ps) (walked + len) d hlen' hc h2'
          refine ⟨i + 1, by simpa using Nat.succ_lt_succ hi, ?_, ?_, ?_⟩
          · rw [List.take_succ_cons, List.sum_cons]
            linarith
          · rw [List.take_succ_cons, List.sum_cons]
            linarith
          · rw [sampleSegments_cons, if_neg (by linarith), heq]
            simp only [List.getD_cons_succ, List.take_succ_cons, List.sum_cons]
            ring_nf

/-- Claim C8: route sampling clamps at both ends.  For every route
built from at least 2 waypoints (`buildRoute ws = some route`):
`samplePolyline route d` is the first waypoint world position when
`d ≤ 0` (hence also equals the sample at 0), the last waypoint world
position when `d ≥ totalLength` (hence also equals the sample at
`totalLength`), and for `0 < d < totalLength` it is the linear
interpolation within the segment containing cumulative distance `d`. -/
theorem c8_sample_clamps (ws : List Cell) (route : PolylineData)
    (h : buildRoute ws = some route) (d : ℚ) :
    (d ≤ 0 → samplePolyline route d = cellCenter (ws.headD { col := 0, row := 0 })
      ∧ samplePolyline route d = samplePolyline route 0)
    ∧ (route.totalLength ≤ d →
        samplePolyline route d = cellCenter (ws.getLastD { col := 0, row := 0 })
        ∧ samplePolyline route d = samplePolyline route route.totalLength)
    ∧ (0 < d → d < route.totalLength →
        ∃ i, i < route.segmentLengths.length ∧
          (route.segmentLengths.take i).sum < d ∧
          d ≤ (route.segmentLengths.take (i + 1)).sum ∧
          samplePolyline route d =
            lerpSeg (route.points.getD i zeroV) (route.points.getD (i + 1) zeroV)
              ((d - (route.segmentLengths.take i).sum) / route.segmentLengths.getD i 0)) := by
  rw [buildRoute] at h
  by_cases hlen : ws.length < 2
  · rw [if_pos hlen] at h; exact absurd h (by simp)
  · rw [if_neg hlen] at h
    by_cases halign : pairsAxisAligned ws
    · rw [if_neg (by simp [halign])] at h
      simp only [Option.some.injEq] at h
      have hne : ws ≠ [] := by
        intro hnil; rw [hnil] at hlen; simp at hlen
      have hpts : route.points = ws.map cellCenter := by rw [← h]
      have hlens : route.segmentLengths = segmentLengthsOf (ws.map cellCenter) := by rw [← h]
      have htot : route.totalLength = (segmentLengthsOf (ws.map cellCenter)).sum := by rw [← h]
      have htotnn : 0 ≤ route.totalLength := by
        rw [htot]; exact List.sum_nonneg (segmentLengthsOf_nonneg _)
      refine ⟨?_, ?_, ?_⟩
      · intro hd
        constructor
        · rw [samplePolyline, if_pos hd, hpts, headD_map_cellCenter ws hne]
        · rw [samplePolyline, if_pos hd, samplePolyline, if_pos le_rfl]
      · intro hd
        by_cases hz : route.totalLength ≤ 0
        · have htot0 : route.totalLength = 0 := le_antisymm hz htotnn
          have hdeg : route.points.headD zeroV = route.points.getLastD zeroV := by
            rw [hpts]
            apply degenerate_head_last
            rw [← hlens]
            have hsum2 : route.segmentLengths.sum = route.totalLength := by rw [htot, hlens]
            rw [hsum2]
            exact htot0
          have hval : ∀ e : ℚ, samplePolyline route e = route.points.getLastD zeroV := by
            intro e
            rw [samplePolyline]
            by_cases he : e ≤ 0
            · rw [if_pos he, hdeg]
            · rw [if_neg he, if_pos (by linarith)]
          constructor
          · rw [hval d, hpts, getLastD_map_cellCenter ws hne]
          · rw [hval d, hval route.totalLength]
        · push_neg at hz
          have hd0 : ¬ d ≤ 0 := by linarith
          constructor
          · rw [samplePolyline, if_neg hd0, if_pos hd, hpts, getLastD_map_cellCenter ws hne]
          · rw [samplePolyline, if_neg hd0, if_pos hd, samplePolyline,
              if_neg (by linarith), if_pos le_rfl]
      · intro hd0 hdtot
        have hsum : route.totalLength = route.segmentLengths.sum := by rw [htot, hlens]
        have hplen : route.points.length = route.segmentLengths.length + 1 := by
          rw [hpts, hlens, segmentLengthsOf_length]
          have h2 : 2 ≤ ws.length := by omega
          simp only [List.length_map]
          omega
        obtain ⟨i, hi, hlo, hhi, heq⟩ := sampleSegments_finds route.segmentLengths route.points
          0 d hplen hd0 (by rw [zero_add, ← hsum]; exact le_of_lt hdtot)
        refine ⟨i, hi, by simpa using hlo, by simpa using hhi, ?_⟩
        rw [samplePolyline, if_neg (by linarith), if_neg (by linarith), heq]
        simp
    · rw [if_pos (by simp [halign])] at h
      exact absurd h (by simp)

/-- Closed witness for C8: on the fixture route, sampling at -5 equals
sampling at 0, the first waypoint world center. -/
theorem c8_sample_clamps_witness :
    samplePolyline wRoute (-5) = cellCenter { col := 0, row := 0 }
      ∧ samplePolyline wRoute (-5) = samplePolyline wRoute 0 := by
  have hr : buildRoute [{ col := 0, row := 0 }, { col := 3, row := 0 }] = some wRoute := by
    norm_num [buildRoute, pairsAxisAligned, axisAligned, segmentLengthsOf, segLengthAA,
      cellCenter, wRoute]
  have h := (c8_sample_clamps [{ col := 0, row := 0 }, { col := 3, row := 0 }] wRoute hr
    (-5)).1 (by norm_num)
  simpa using h

/-! ### Claim C1 -/

/-- Claim C1: loss precedence.  For every running state and dt > 0, if
the lives total after the movement phase core-damage debits is ≤ 0,
the tick returns status `lost` with lives exactly 0, and the
wave-advancement step is skipped: `waveIndex` keeps its input value
and `spawnedInWave`, `timeUntilWaveStart`, `timeUntilNextSpawn` keep
the values computed by the spawn phase; in particular the status is
never `won` in such a tick. -/
theorem c1_loss_precedence (towerTypes : TowerTypeId → TowerType)
    (enemyTypes : EnemyTypeId → EnemyType) (waves : List WaveDefinition)
    (route : PolylineData) (sqrtQ : ℚ → ℚ) (s : GameState) (dt : ℚ)
    (hs : s.status = MatchStatus.running) (hdt : 0 < dt)
    (hlives : (moveEnemies route dt
      (runSpawnPhase enemyTypes waves route s dt).enemies s.lives).2 ≤ 0) :
    (tickGame towerTypes enemyTypes waves route sqrtQ s dt).status = MatchStatus.lost
    ∧ (tickGame towerTypes enemyTypes waves route sqrtQ s dt).lives = 0
    ∧ (tickGame towerTypes enemyTypes waves route sqrtQ s dt).waveIndex = s.waveIndex
    ∧ (tickGame towerTypes enemyTypes waves route sqrtQ s dt).spawnedInWave
        = (runSpawnPhase enemyTypes waves route s dt).spawnedInWave
    ∧ (tickGame towerTypes enemyTypes waves route sqrtQ s dt).timeUntilWaveStart
        = (runSpawnPhase enemyTypes waves route s dt).timeUntilWaveStart
    ∧ (tickGame towerTypes enemyTypes waves route sqrtQ s dt).timeUntilNextSpawn
        = (runSpawnPhase enemyTypes waves route s dt).timeUntilNextSpawn
    ∧ (tickGame towerTypes enemyTypes waves route sqrtQ s dt).status ≠ MatchStatus.won := by
  have hmax : max 0 dt = dt := max_eq_right hdt.le
  rw [tickGame, if_pos hs, hmax, if_neg hdt.ne']
  refine ⟨?_, ?_, ?_, ?_, ?_, ?_, ?_⟩ <;>
    simp [tickGameRun, resolveEndgame, if_pos hlives]

/-- Closed witness for C1: concrete state with 1 life and an enemy
dealing 2 core damage this tick. -/
theorem c1_loss_precedence_witness :
    (tickGame wTowerTypes wEnemyTypes [] wRoute (fun _ => 0) c1State 1).status
        = MatchStatus.lost
    ∧ (tickGame wTowerTypes wEnemyTypes [] wRoute (fun _ => 0) c1State 1).lives = 0 := by
  have h := c1_loss_precedence wTowerTypes wEnemyTypes [] wRoute (fun _ => 0) c1State 1
    rfl (by norm_num)
    (by norm_num [runSpawnPhase, moveEnemies, c1State, baseState, dyingEnemy, listGet, wRoute])
  exact ⟨h.1, h.2.1⟩

/-! ### Event bookkeeping lemmas (used by claim C3) -/

lemma processTower_events (towerTypes : TowerTypeId → TowerType) (dt : ℚ)
    (enemies : List Enemy) (acc : TowerAcc) (tower : Tower) :
    ∃ new, (processTower towerTypes dt enemies acc tower).events = acc.events ++ new
      ∧ ∀ e ∈ new, e.type = GameEventType.fire := by
  cases htgt : selectTarget enemies tower.cell (getTowerStats towerTypes tower)
      tower.targetMode with
  | none =>
    simp only [processTower, htgt]
    exact ⟨[], by simp, by simp⟩
  | some target =>
    simp only [processTower, htgt]
    split_ifs with h1 h2 h3 h4
    · exact ⟨[{ id := acc.nextEventId, type := .fire, towerType := some tower.towerType }],
        rfl, by simp⟩
    · exact ⟨[], by simp, by simp⟩
    · exact ⟨[{ id := acc.nextEventId, type := .fire, towerType := some tower.towerType }],
        rfl, by simp⟩
    · exact ⟨[], by simp, by simp⟩
    · exact ⟨[], by simp, by simp⟩

lemma runTowerPhase_events (towerTypes : TowerTypeId → TowerType) (dt : ℚ)
    (enemies : List Enemy) :
    ∀ (towers : List Tower) (acc : TowerAcc),
      ∃ new, (runTowerPhase towerTypes dt enemies towers acc).events = acc.events ++ new
        ∧ ∀ e ∈ new, e.type = GameEventType.fire := by
  intro towers
  induction towers with
  | nil => intro acc; exact ⟨[], by simp [runTowerPhase], by simp⟩
  | cons t ts ih =>
    intro acc
    obtain ⟨new1, h1, hf1⟩ := processTower_events towerTypes dt enemies acc t
    obtain ⟨new2, h2, hf2⟩ := ih (processTower towerTypes dt enemies acc t)
    refine ⟨new1 ++ new2, ?_, ?_⟩
    · show (runTowerPhase towerTypes dt enemies ts (processTower towerTypes dt enemies acc t)).events
        = acc.events ++ (new1 ++ new2)
      rw [h2, h1, List.append_assoc]
    · intro e he
      rcases List.mem_append.1 he with he | he
      · exact hf1 e he
      · exact hf2 e he

lemma processProjectile_events (sqrtQ : ℚ → ℚ) (dt : ℚ) (enemies : List Enemy)
    (acc : ProjAcc) (p : Projectile) :
    ∃ new, (processProjectile sqrtQ dt enemies acc p).events = acc.events ++ new
      ∧ ∀ e ∈ new, e.type = GameEventType.hit := by
  cases htgt : mapLookup enemies p.targetEnemyId with
  | none =>
    simp only [processProjectile, htgt]
    exact ⟨[], by simp, by simp⟩
  | some target =>
    simp only [processProjectile, htgt]
    by_cases himp : impacts p target dt
    · rw [if_pos himp]
      by_cases hbud : 0 < acc.hitEventBudget
      · refine ⟨[{ id := acc.nextEventId, type := .hit, towerType := some p.towerType }],
          ?_, by simp⟩
        simp [if_pos hbud]
      · refine ⟨[], ?_, by simp⟩
        simp [if_neg hbud]
    · rw [if_neg himp]
      exact ⟨[], by simp, by simp⟩

lemma runProjectilePhase_events (sqrtQ : ℚ → ℚ) (dt : ℚ) (enemies : List Enemy) :
    ∀ (projectiles : List Projectile) (acc : ProjAcc),
      ∃ new, (runProjectilePhase sqrtQ dt enemies projectiles acc).events = acc.events ++ new
        ∧ ∀ e ∈ new, e.type = GameEventType.hit := by
  intro projectiles
  induction projectiles with
  | nil => intro acc; exact ⟨[], by simp [runProjectilePhase], by simp⟩
  | cons p ps ih =>
    intro acc
    obtain ⟨new1, h1, hf1⟩ := processProjectile_events sqrtQ dt enemies acc p
    obtain ⟨new2, h2, hf2⟩ := ih (processProjectile sqrtQ dt enemies acc p)
    refine ⟨new1 ++ new2, ?_, ?_⟩
    · show (runProjectilePhase sqrtQ dt enemies ps
          (processProjectile sqrtQ dt enemies acc p)).events = acc.events ++ (new1 ++ new2)
      rw [h2, h1, List.append_assoc]
    · intro e he
      rcases List.mem_append.1 he with he | he
      · exact hf1 e he
      · exact hf2 e he

lemma filter_spawn_of_fire {l : List GameEvent} (h : ∀ e ∈ l, e.type = GameEventType.fire) :
    l.filter (fun e => e.type = GameEventType.spawn) = [] := by
  rw [List.filter_eq_nil]
  intro e he
  rw [h e he]
  decide

lemma filter_spawn_of_hit {l : List GameEvent} (h : ∀ e ∈ l, e.type = GameEventType.hit) :
    l.filter (fun e => e.type = GameEventType.spawn) = [] := by
  rw [List.filter_eq_nil]
  intro e he
  rw [h e he]
  decide

lemma filter_spawn_all {l : List GameEvent} (h : ∀ e ∈ l, e.type = GameEventType.spawn) :
    l.filter (fun e => e.type = GameEventType.spawn) = l := by
  rw [List.filter_eq_self]
  intro e he
  rw [h e he]
  decide

/-- In a running tick, the returned event batch is the spawn-phase
events followed by fire events (tower loop) and hit events (projectile
loop). -/
lemma tickGame_recentEvents (towerTypes : TowerTypeId → TowerType)
    (enemyTypes : EnemyTypeId → EnemyType) (waves : List WaveDefinition)
    (route : PolylineData) (sqrtQ : ℚ → ℚ) (s : GameState) (dt : ℚ)
    (hs : s.status = MatchStatus.running) (hdt : 0 < dt) :
    ∃ fnew hnew,
      (tickGame towerTypes enemyTypes waves route sqrtQ s dt).recentEvents
        = ((runSpawnPhase enemyTypes waves route s dt).events ++ fnew) ++ hnew
      ∧ (∀ e ∈ fnew, e.type = GameEventType.fire)
      ∧ (∀ e ∈ hnew, e.type = GameEventType.hit) := by
  rw [tickGame, if_pos hs, max_eq_right hdt.le, if_neg hdt.ne']
  simp only [tickGameRun]
  obtain ⟨fnew, hf, hfire⟩ := runTowerPhase_events towerTypes dt
    (moveEnemies route dt (runSpawnPhase enemyTypes waves route s dt).enemies s.lives).1
    s.towers
    { towers := [], projectiles := [], beams := [], damage := fun _ => 0,
      events := (runSpawnPhase enemyTypes waves route s dt).events, fireEventBudget := 4,
      nextProjectileId := s.nextProjectileId,
      nextEventId := (runSpawnPhase enemyTypes waves route s dt).nextEventId }
  obtain ⟨hnew, hh, hhit⟩ := runProjectilePhase_events sqrtQ dt
    (moveEnemies route dt (runSpawnPhase enemyTypes waves route s dt).enemies s.lives).1
    (s.projectiles ++ (runTowerPhase towerTypes dt
      (moveEnemies route dt (runSpawnPhase enemyTypes waves route s dt).enemies s.lives).1
      s.towers
      { towers := [], projectiles := [], beams := [], damage := fun _ => 0,
        events := (runSpawnPhase enemyTypes waves route s dt).events, fireEventBudget := 4,
        nextProjectileId := s.nextProjectileId,
        nextEventId := (runSpawnPhase enemyTypes waves route s dt).nextEventId }).projectiles)
    { projectiles := [], hitEffects := [],
      damage := (runTowerPhase towerTypes dt
        (moveEnemies route dt (runSpawnPhase enemyTypes waves route s dt).enemies s.lives).1
        s.towers
        { towers := [], projectiles := [], beams := [], damage := fun _ => 0,
          events := (runSpawnPhase enemyTypes waves route s dt).events, fireEventBudget := 4,
          nextProjectileId := s.nextProjectileId,
          nextEventId := (runSpawnPhase enemyTypes waves route s dt).nextEventId }).damage,
      slow := fun _ => none,
      events := (runTowerPhase towerTypes dt
        (moveEnemies route dt (runSpawnPhase enemyTypes waves route s dt).enemies s.lives).1
        s.towers
        { towers := [], projectiles := [], beams := [], damage := fun _ => 0,
          events := (runSpawnPhase enemyTypes waves route s dt).events, fireEventBudget := 4,
          nextProjectileId := s.nextProjectileId,
          nextEventId := (runSpawnPhase enemyTypes waves route s dt).nextEventId }).events,
      hitEventBudget := 3, impactEffectBudget := 8,
      nextEffectId := (runSpawnPhase enemyTypes waves route s dt).nextEffectId,
      nextEventId := (runTowerPhase towerTypes dt
        (moveEnemies route dt (runSpawnPhase enemyTypes waves route s dt).enemies s.lives).1
        s.towers
        { towers := [], projectiles := [], beams := [], damage := fun _ => 0,
          events := (runSpawnPhase enemyTypes waves route s dt).events, fireEventBudget := 4,
          nextProjectileId := s.nextProjectileId,
          nextEventId := (runSpawnPhase enemyTypes waves route s dt).nextEventId }).nextEventId }
  refine ⟨fnew, hnew, ?_, hfire, hhit⟩
  rw [hh, hf]

/-- In a running tick the enemy id counter of the returned state is
the spawn-phase counter. -/
lemma tickGame_nextEnemyId (towerTypes : TowerTypeId → TowerType)
    (enemyTypes : EnemyTypeId → EnemyType) (waves : List WaveDefinition)
    (route : PolylineData) (sqrtQ : ℚ → ℚ) (s : GameState) (dt : ℚ)
    (hs : s.status = MatchStatus.running) (hdt : 0 < dt) :
    (tickGame towerTypes enemyTypes waves route sqrtQ s dt).nextEnemyId
      = (runSpawnPhase enemyTypes waves route s dt).nextEnemyId := by
  rw [tickGame, if_pos hs, max_eq_right hdt.le, if_neg hdt.ne']
  simp [tickGameRun]

/-! ### Claim C3 -/

/-- Claim C3: spawn burst catch-up.  For every running state whose
current wave has `spawnInterval = 0.1` and `count = 10`, with the
start delay elapsed (`timeUntilWaveStart = 0`), `spawnedInWave = 0`
and `timeUntilNextSpawn = 0`, one call `tickGame(s, 2.0)` creates
exactly 10 new enemy instances (the spawn phase appends exactly the 10
enemies with consecutive fresh ids to the enemy list, and the enemy id
counter of the returned state advances by exactly 10), their ids are
pairwise distinct, and the returned event batch contains exactly 10
`spawn` events. -/
theorem c3_spawn_burst (towerTypes : TowerTypeId → TowerType)
    (enemyTypes : EnemyTypeId → EnemyType) (waves : List WaveDefinition)
    (route : PolylineData) (sqrtQ : ℚ → ℚ) (s : GameState) (et : EnemyTypeId) (sd : Option ℚ)
    (hs : s.status = MatchStatus.running)
    (hwave : listGet waves s.waveIndex =
      some { enemyType := et, count := 10, spawnInterval := 1/10, startDelay := sd })
    (htws : s.timeUntilWaveStart = 0) (hspawned : s.spawnedInWave = 0)
    (htuns : s.timeUntilNextSpawn = 0) :
    (runSpawnPhase enemyTypes waves route s 2).enemies
        = s.enemies ++ (List.range 10).map
            (fun i => createEnemy enemyTypes et (s.nextEnemyId + i) route)
    ∧ ((List.range 10).map
        (fun i => (createEnemy enemyTypes et (s.nextEnemyId + i) route).id)).Nodup
    ∧ (tickGame towerTypes enemyTypes waves route sqrtQ s 2).nextEnemyId = s.nextEnemyId + 10
    ∧ ((tickGame towerTypes enemyTypes waves route sqrtQ s 2).recentEvents.filter
        (fun e => e.type = GameEventType.spawn)).length = 10 := by
  have hrange : List.range 10 = [0,1,2,3,4,5,6,7,8,9] := rfl
  have hsp : runSpawnPhase enemyTypes waves route s 2 =
      { enemies := s.enemies ++ (List.range 10).map
          (fun i => createEnemy enemyTypes et (s.nextEnemyId + i) route)
        effects := (List.range 10).map
          (fun i => createEffect .spawn
            (createEnemy enemyTypes et (s.nextEnemyId + i) route).position (s.nextEffectId + i))
        events := (List.range 10).map
          (fun i => { id := s.nextEventId + i, type := .spawn, towerType := none })
        nextEnemyId := s.nextEnemyId + 10
        nextEffectId := s.nextEffectId + 10
        nextEventId := s.nextEventId + 10
        spawnedInWave := 10
        timeUntilWaveStart := 0
        timeUntilNextSpawn := -1 } := by
    norm_num [runSpawnPhase, hwave, htws, hspawned, htuns, spawnLoop, hrange, List.append_assoc]
  refine ⟨?_, ?_, ?_, ?_⟩
  · rw [hsp]
  · have hid : ∀ i : ℕ, (createEnemy enemyTypes et (s.nextEnemyId + i) route).id
        = enemyIdString (s.nextEnemyId + i) := fun i => rfl
    simp only [hid]
    have hinj : Function.Injective (fun i : ℕ => enemyIdString (s.nextEnemyId + i)) := by
      intro a b hab
      have := enemyIdString_injective hab
      omega
    exact (List.nodup_range 10).map hinj
  · rw [tickGame_nextEnemyId towerTypes enemyTypes waves route sqrtQ s 2 hs (by norm_num),
      hsp]
  · obtain ⟨fnew, hnew, hev, hfire, hhit⟩ := tickGame_recentEvents towerTypes enemyTypes waves
      route sqrtQ s 2 hs (by norm_num)
    rw [hev, List.filter_append, List.filter_append, filter_spawn_of_fire hfire,
      filter_spawn_of_hit hhit, List.append_nil, List.append_nil, hsp]
    rw [filter_spawn_all (by
      intro e he
      rw [List.mem_map] at he
      obtain ⟨i, _, hei⟩ := he
      rw [← hei])]
    simp [hrange]

/-- Closed witness for C3: the concrete burst wave on the fixture
state; one 2-second tick advances the enemy id counter from 1 to 11
and emits exactly 10 spawn events. -/
theorem c3_spawn_burst_witness :
    (tickGame wTowerTypes wEnemyTypes [burstWave] wRoute (fun _ => 0) baseState 2).nextEnemyId
        = baseState.nextEnemyId + 10
    ∧ ((tickGame wTowerTypes wEnemyTypes [burstWave] wRoute (fun _ => 0)
        baseState 2).recentEvents.filter (fun e => e.type = GameEventType.spawn)).length = 10 := by
  have h := c3_spawn_burst wTowerTypes wEnemyTypes [burstWave] wRoute (fun _ => 0) baseState
    .spark none rfl (by norm_num [listGet, baseState, burstWave]) rfl rfl rfl
  exact ⟨h.2.2.1, h.2.2.2⟩

/-! ### Claim C10 -/

lemma spawnLoop_enemies (enemyTypes : EnemyTypeId → EnemyType) (route : PolylineData)
    (wave : WaveDefinition) :
    ∀ (fuel : ℕ) (acc : SpawnAcc),
      ∃ new, (spawnLoop enemyTypes route wave fuel acc).enemies = acc.enemies ++ new
        ∧ ∀ e ∈ new, e.progress = 0 ∧ e.slowMultiplier = 1 ∧ e.slowTimeRemaining = 0 := by
  intro fuel
  induction fuel with
  | zero => intro acc; exact ⟨[], by simp [spawnLoop], by simp⟩
  | succ fuel ih =>
    intro acc
    rw [spawnLoop]
    split_ifs with hc
    · obtain ⟨new, hnew, hall⟩ := ih _
      refine ⟨createEnemy enemyTypes wave.enemyType acc.nextEnemyId route :: new, ?_, ?_⟩
      · rw [hnew]
        simp
      · intro e he
        rcases List.mem_cons.1 he with he | he
        · subst he
          exact ⟨rfl, rfl, rfl⟩
        · exact hall e he
    · exact ⟨[], by simp, by simp⟩

lemma runSpawnPhase_enemies (enemyTypes : EnemyTypeId → EnemyType)
    (waves : List WaveDefinition) (route : PolylineData) (s : GameState) (dt : ℚ) :
    ∃ new, (runSpawnPhase enemyTypes waves route s dt).enemies = s.enemies ++ new
      ∧ ∀ e ∈ new, e.progress = 0 ∧ e.slowMultiplier = 1 ∧ e.slowTimeRemaining = 0 := by
  cases hw : listGet waves s.waveIndex with
  | none =>
    simp only [runSpawnPhase, hw]
    exact ⟨[], by simp, by simp⟩
  | some currentWave =>
    simp only [runSpawnPhase, hw]
    split_ifs with h1 h2
    · exact ⟨[], by simp, by simp⟩
    · exact spawnLoop_enemies enemyTypes route currentWave _ _
    · exact ⟨[], by simp, by simp⟩

lemma moveEnemies_cons (route : PolylineData) (dt : ℚ) (a : Enemy) (rest : List Enemy)
    (lives : ℚ) :
    moveEnemies route dt (a :: rest) lives =
      if route.totalLength ≤
          a.progress + a.speed * (if 0 < max 0 (a.slowTimeRemaining - dt)
            then a.slowMultiplier else 1) * dt then
        moveEnemies route dt rest (lives - a.coreDamage)
      else
        ({ a with
            progress := a.progress + a.speed * (if 0 < max 0 (a.slowTimeRemaining - dt)
              then a.slowMultiplier else 1) * dt
            position := samplePolyline route (a.progress + a.speed *
              (if 0 < max 0 (a.slowTimeRemaining - dt) then a.slowMultiplier else 1) * dt)
            slowMultiplier := if 0 < max 0 (a.slowTimeRemaining - dt)
              then a.slowMultiplier else 1
            slowTimeRemaining := max 0 (a.slowTimeRemaining - dt) }
          :: (moveEnemies route dt rest lives).1,
          (moveEnemies route dt rest lives).2) := rfl

lemma moveEnemies_mem_fresh (route : PolylineData) (dt : ℚ) (hdt : 0 < dt) :
    ∀ (l : List Enemy) (lives : ℚ) (e : Enemy), e ∈ l →
      e.progress = 0 → e.slowMultiplier = 1 → e.slowTimeRemaining = 0 →
      e.speed * dt < route.totalLength →
      { e with progress := e.speed * dt,
               position := samplePolyline route (e.speed * dt) }
        ∈ (moveEnemies route dt l lives).1 := by
  intro l
  induction l with
  | nil => intro lives e he; simp at he
  | cons a rest ih =>
    intro lives e he hp hm hstr hlt
    rcases List.mem_cons.1 he with he | he
    · subst he
      rw [moveEnemies_cons]
      have hmax : max 0 (e.slowTimeRemaining - dt) = 0 := by
        rw [hstr]
        simp
        linarith
      rw [hmax]
      have hif : ¬ ((0 : ℚ) < 0) := lt_irrefl 0
      rw [if_neg hif]
      have hprog : e.progress + e.speed * 1 * dt = e.speed * dt := by
        rw [hp]; ring
      rw [hprog, if_neg (not_le.2 hlt)]
      have hrec : ({ e with
            progress := e.speed * dt
            position := samplePolyline route (e.speed * dt)
            slowMultiplier := 1
            slowTimeRemaining := 0 } : Enemy)
          = { e with
              progress := e.speed * dt
              position := samplePolyline route (e.speed * dt) } := by
        obtain ⟨⟩ := e
        simp_all
      rw [hrec]
      exact List.mem_cons_self _ _
    · rw [moveEnemies_cons]
      split_ifs <;>
        first
        | exact ih (lives - a.coreDamage) e he hp hm hstr hlt
        | exact List.mem_cons_of_mem _ (ih lives e he hp hm hstr hlt)

lemma resolveEnemies_zero : ∀ (l : List Enemy) (money : ℚ),
    resolveEnemies (fun _ => 0) (fun _ => none) l money = (l, money) := by
  intro l
  induction l with
  | nil => intro money; rfl
  | cons e rest ih =>
    intro money
    rw [resolveEnemies]
    simp [mergeSlowStatus, ih]

/-- Claim C10: every enemy created by the spawn phase of a running
tick starts at progress 0 with no slow status, is included in the
movement phase of the same call, and (with no towers and no
projectiles, so no damage interferes, and not reaching the core)
appears in the returned state having advanced by its full
`speed × dt`. -/
theorem c10_spawned_move_full_dt (towerTypes : TowerTypeId → TowerType)
    (enemyTypes : EnemyTypeId → EnemyType) (waves : List WaveDefinition)
    (route : PolylineData) (sqrtQ : ℚ → ℚ) (s : GameState) (dt : ℚ)
    (hs : s.status = MatchStatus.running) (hdt : 0 < dt)
    (htow : s.towers = []) (hproj : s.projectiles = []) :
    ∃ new, (runSpawnPhase enemyTypes waves route s dt).enemies = s.enemies ++ new
      ∧ (∀ e ∈ new, e.progress = 0 ∧ e.slowMultiplier = 1 ∧ e.slowTimeRemaining = 0)
      ∧ ∀ e ∈ new, e.speed * dt < route.totalLength →
          { e with progress := e.speed * dt,
                   position := samplePolyline route (e.speed * dt) }
            ∈ (tickGame towerTypes enemyTypes waves route sqrtQ s dt).enemies := by
  obtain ⟨new, hnew, hfresh⟩ := runSpawnPhase_enemies enemyTypes waves route s dt
  refine ⟨new, hnew, hfresh, ?_⟩
  intro e he hlt
  rw [tickGame, if_pos hs, max_eq_right hdt.le, if_neg hdt.ne']
  simp only [tickGameRun, htow, hproj, runTowerPhase, List.foldl_nil, runProjectilePhase,
    List.nil_append, resolveEnemies_zero]
  exact moveEnemies_mem_fresh route dt hdt _ s.lives e
    (by rw [hnew]; exact List.mem_append_right _ he)
    (hfresh e he).1 (hfresh e he).2.1 (hfresh e he).2.2 hlt

/-- Closed witness for C10: with the burst wave and `dt = 1`, the
first spawned enemy (speed 1.5) appears in the returned state at
progress exactly 1.5. -/
theorem c10_spawned_move_full_dt_witness :
    c10MovedEnemy
      ∈ (tickGame wTowerTypes wEnemyTypes [burstWave] wRoute (fun _ => 0)
          baseState 1).enemies := by
  rw [show c10MovedEnemy = { createEnemy wEnemyTypes EnemyTypeId.spark 1 wRoute with
      progress := 3/2
      position := samplePolyline wRoute (3/2) } from rfl]
  obtain ⟨new, hnew, hfresh, hmem⟩ := c10_spawned_move_full_dt wTowerTypes wEnemyTypes
    [burstWave] wRoute (fun _ => 0) baseState 1 rfl (by norm_num) rfl rfl
  have hrange : List.range 10 = [0,1,2,3,4,5,6,7,8,9] := rfl
  have heval : (runSpawnPhase wEnemyTypes [burstWave] wRoute baseState 1).enemies
      = (List.range 10).map (fun i => createEnemy wEnemyTypes .spark (1 + i) wRoute) := by
    norm_num [runSpawnPhase, baseState, burstWave, listGet, spawnLoop, hrange,
      List.append_assoc]
  rw [heval] at hnew
  have hbase : baseState.enemies = [] := rfl
  rw [hbase, List.nil_append] at hnew
  have he : createEnemy wEnemyTypes EnemyTypeId.spark 1 wRoute ∈ new := by
    rw [← hnew, List.mem_map]
    exact ⟨0, by simp, by norm_num⟩
  have hspd : (createEnemy wEnemyTypes EnemyTypeId.spark 1 wRoute).speed * 1 = 3/2 := by
    norm_num [createEnemy, wEnemyTypes, sparkType]
  have h := hmem _ he (by
    rw [hspd]
    norm_num [wRoute])
  rw [hspd] at h
  exact h

/-! ### Claim C9 -/

/-- Counterexample to C9 as stated: a running state with zero towers,
zero enemies and `dt = 1` for which the tick does NOT only change
time-dependent fields — with the wave schedule exhausted the status
flips from `running` to `won` in this tick. -/
theorem c9_conservation_counterexample :
    baseState.status = MatchStatus.running
    ∧ baseState.towers = []
    ∧ baseState.enemies = []
    ∧ (tickGame wTowerTypes wEnemyTypes [] wRoute (fun _ => 0) baseState 1).status
        = MatchStatus.won
    ∧ MatchStatus.won ≠ MatchStatus.running := by
  refine ⟨rfl, rfl, rfl, ?_, by decide⟩
  norm_num [tickGame, tickGameRun, baseState, runSpawnPhase, listGet, moveEnemies,
    runTowerPhase, runProjectilePhase, resolveEnemies, resolveEndgame, advanceWave,
    ageEffects]

/-- Claim C9 (amended): conservation under a no-damage, no-spawn,
no-advancement tick.  For a running state with positive lives, zero
towers, zero enemies, zero projectiles, a current wave whose spawn
quota is not complete, and timers that do not trigger a spawn this
tick (start delay still pending, or the inter-spawn timer exceeds dt),
the tick changes only `elapsed`, the wave timers and the effect ages;
status, money, lives, wave counters, entity lists and all id counters
are unchanged (and the transient per-tick event batch is empty). -/
theorem c9_conservation_amended (towerTypes : TowerTypeId → TowerType)
    (enemyTypes : EnemyTypeId → EnemyType) (waves : List WaveDefinition)
    (route : PolylineData) (sqrtQ : ℚ → ℚ) (s : GameState) (dt : ℚ) (wave : WaveDefinition)
    (hs : s.status = MatchStatus.running) (hdt : 0 < dt) (hlives : 0 < s.lives)
    (htow : s.towers = []) (hene : s.enemies = []) (hproj : s.projectiles = [])
    (hwave : listGet waves s.waveIndex = some wave)
    (hquota : s.spawnedInWave < wave.count)
    (htimer : 0 < s.timeUntilWaveStart ∨ dt < s.timeUntilNextSpawn) :
    (tickGame towerTypes enemyTypes waves route sqrtQ s dt).status = MatchStatus.running
    ∧ (tickGame towerTypes enemyTypes waves route sqrtQ s dt).money = s.money
    ∧ (tickGame towerTypes enemyTypes waves route sqrtQ s dt).lives = s.lives
    ∧ (tickGame towerTypes enemyTypes waves route sqrtQ s dt).enemies = []
    ∧ (tickGame towerTypes enemyTypes waves route sqrtQ s dt).towers = []
    ∧ (tickGame towerTypes enemyTypes waves route sqrtQ s dt).projectiles = []
    ∧ (tickGame towerTypes enemyTypes waves route sqrtQ s dt).beams = []
    ∧ (tickGame towerTypes enemyTypes waves route sqrtQ s dt).waveIndex = s.waveIndex
    ∧ (tickGame towerTypes enemyTypes waves route sqrtQ s dt).spawnedInWave = s.spawnedInWave
    ∧ (tickGame towerTypes enemyTypes waves route sqrtQ s dt).nextEnemyId = s.nextEnemyId
    ∧ (tickGame towerTypes enemyTypes waves route sqrtQ s dt).nextTowerId = s.nextTowerId
    ∧ (tickGame towerTypes enemyTypes waves route sqrtQ s dt).nextProjectileId
        = s.nextProjectileId
    ∧ (tickGame towerTypes enemyTypes waves route sqrtQ s dt).nextEffectId = s.nextEffectId
    ∧ (tickGame towerTypes enemyTypes waves route sqrtQ s dt).nextEventId = s.nextEventId
    ∧ (tickGame towerTypes enemyTypes waves route sqrtQ s dt).elapsed = s.elapsed + dt
    ∧ (tickGame towerTypes enemyTypes waves route sqrtQ s dt).effects = ageEffects dt s.effects
    ∧ (tickGame towerTypes enemyTypes waves route sqrtQ s dt).recentEvents = []
    ∧ (0 < s.timeUntilWaveStart →
        (tickGame towerTypes enemyTypes waves route sqrtQ s dt).timeUntilWaveStart
            = max 0 (s.timeUntilWaveStart - dt)
        ∧ (tickGame towerTypes enemyTypes waves route sqrtQ s dt).timeUntilNextSpawn
            = s.timeUntilNextSpawn)
    ∧ (¬ 0 < s.timeUntilWaveStart →
        (tickGame towerTypes enemyTypes waves route sqrtQ s dt).timeUntilWaveStart
            = s.timeUntilWaveStart
        ∧ (tickGame towerTypes enemyTypes waves route sqrtQ s dt).timeUntilNextSpawn
            = s.timeUntilNextSpawn - dt) := by
  have hwlt : s.waveIndex < waves.length := by
    have hx := hwave
    unfold listGet at hx
    exact List.get?_eq_some.1 hx |>.1
  have hsp : runSpawnPhase enemyTypes waves route s dt =
      { enemies := s.enemies
        effects := []
        events := []
        nextEnemyId := s.nextEnemyId
        nextEffectId := s.nextEffectId
        nextEventId := s.nextEventId
        spawnedInWave := s.spawnedInWave
        timeUntilWaveStart := if 0 < s.timeUntilWaveStart
          then max 0 (s.timeUntilWaveStart - dt) else s.timeUntilWaveStart
        timeUntilNextSpawn := if 0 < s.timeUntilWaveStart
          then s.timeUntilNextSpawn else s.timeUntilNextSpawn - dt } := by
    rcases htimer with ht | ht
    · simp only [runSpawnPhase, hwave]
      rw [if_pos ht, if_pos ht, if_pos ht]
    · have hnt : ¬ 0 < s.timeUntilWaveStart ∨ True := Or.inr trivial
      by_cases htws : 0 < s.timeUntilWaveStart
      · simp only [runSpawnPhase, hwave]
        rw [if_pos htws, if_pos htws, if_pos htws]
      · simp only [runSpawnPhase, hwave]
        rw [if_neg htws, if_pos hquota, if_neg htws, if_neg htws]
        cases hfuel : wave.count - s.spawnedInWave with
        | zero => omega
        | succ k =>
          rw [spawnLoop]
          rw [if_neg (by
            intro hcon
            have := hcon.1
            simp only at this
            linarith)]
  have hend : ∀ tws₀ tuns₀ : ℚ,
      resolveEndgame waves s.lives s.waveIndex s.spawnedInWave tws₀ tuns₀ []
        = { status := MatchStatus.running, lives := s.lives, waveIndex := s.waveIndex,
            spawnedInWave := s.spawnedInWave, timeUntilWaveStart := tws₀,
            timeUntilNextSpawn := tuns₀ } := by
    intro tws₀ tuns₀
    have hadv : advanceWave waves s.waveIndex s.spawnedInWave tws₀ tuns₀ []
        = { waveIndex := s.waveIndex, spawnedInWave := s.spawnedInWave,
            timeUntilWaveStart := tws₀, timeUntilNextSpawn := tuns₀ } := by
      simp only [advanceWave, hwave]
      rw [if_neg (fun hcon => absurd hcon.1 (not_le.2 hquota))]
    simp only [resolveEndgame, hadv]
    rw [if_neg (not_le.2 hlives)]
    rw [if_neg (fun hcon => absurd hcon.1 (not_le.2 hwlt))]
  have hfinal : tickGame towerTypes enemyTypes waves route sqrtQ s dt = { s with
      elapsed := s.elapsed + dt
      timeUntilWaveStart := if 0 < s.timeUntilWaveStart
        then max 0 (s.timeUntilWaveStart - dt) else s.timeUntilWaveStart
      timeUntilNextSpawn := if 0 < s.timeUntilWaveStart
        then s.timeUntilNextSpawn else s.timeUntilNextSpawn - dt
      enemies := []
      towers := []
      projectiles := []
      beams := []
      effects := ageEffects dt s.effects
      recentEvents := [] } := by
    rw [tickGame, if_pos hs, max_eq_right hdt.le, if_neg hdt.ne']
    simp only [tickGameRun, hsp, hene, htow, hproj, moveEnemies, runTowerPhase,
      List.foldl_nil, runProjectilePhase, List.nil_append, resolveEnemies_zero, hend,
      List.append_nil, hs]
  rw [hfinal]
  refine ⟨hs, rfl, rfl, rfl, rfl, rfl, rfl, rfl, rfl, rfl, rfl, rfl, rfl, rfl, rfl, rfl, rfl,
    ?_, ?_⟩
  · intro ht
    exact ⟨by simp [if_pos ht], by simp [if_pos ht]⟩
  · intro ht
    exact ⟨by simp [if_neg ht], by simp [if_neg ht]⟩

/-- Closed witness for the amended C9: pending start delay 5, one
1-second tick only counts the timer down to 4 and leaves
money/lives/status and all entities untouched. -/
theorem c9_conservation_amended_witness :
    (tickGame wTowerTypes wEnemyTypes [burstWave] wRoute (fun _ => 0)
        { baseState with timeUntilWaveStart := 5 } 1).money = 160
    ∧ (tickGame wTowerTypes wEnemyTypes [burstWave] wRoute (fun _ => 0)
        { baseState with timeUntilWaveStart := 5 } 1).status = MatchStatus.running
    ∧ (tickGame wTowerTypes wEnemyTypes [burstWave] wRoute (fun _ => 0)
        { baseState with timeUntilWaveStart := 5 } 1).timeUntilWaveStart = 4 := by
  have h := c9_conservation_amended wTowerTypes wEnemyTypes [burstWave] wRoute (fun _ => 0)
    { baseState with timeUntilWaveStart := 5 } 1 burstWave rfl (by norm_num) (by norm_num [baseState])
    rfl rfl rfl (by norm_num [listGet, baseState]) (by norm_num [burstWave, baseState])
    (Or.inl (by norm_num [baseState]))
  refine ⟨h.2.1.trans rfl, h.1, ?_⟩
  have ht := h.2.2.2.2.2.2.2.2.2.2.2.2.2.2.2.2.2.1 (by norm_num [baseState])
  rw [ht.1]
  norm_num [baseState]

/-! ### Claim C4 -/

lemma applySlow_fold (enemyId : String) :
    ∀ (apps : List (ℚ × ℚ)) (m : String → Option (ℚ × ℚ)) (m0 d0 : ℚ),
      (∀ a ∈ apps, 0 < a.1 ∧ a.1 < 1 ∧ 0 < a.2) →
      m enemyId = some (m0, d0) →
      (apps.foldl (fun acc a => applySlow acc enemyId a.1 a.2) m) enemyId
        = some ((apps.map Prod.fst).foldl min m0, (apps.map Prod.snd).foldl max d0) := by
  intro apps
  induction apps with
  | nil => intro m m0 d0 _ hm; simpa using hm
  | cons a rest ih =>
    intro m m0 d0 hvalid hm
    obtain ⟨h1, h2, h3⟩ := hvalid a (List.mem_cons_self a rest)
    have hguard : ¬ (a.1 ≤ 0 ∨ 1 ≤ a.1 ∨ a.2 ≤ 0) := by
      push_neg
      exact ⟨h1, h2, h3⟩
    have hm' : applySlow m enemyId a.1 a.2 enemyId = some (min m0 a.1, max d0 a.2) := by
      rw [applySlow, if_neg hguard, hm]
      simp
    simp only [List.foldl_cons, List.map_cons]
    exact ih (applySlow m enemyId a.1 a.2) (min m0 a.1) (max d0 a.2)
      (fun x hx => hvalid x (List.mem_cons_of_mem a hx)) hm'

/-- Counterexample to C4 as stated: an enemy with a residual slow
(multiplier 0.2, 9 seconds left after this tick) receives precisely the
two slow applications of the claim, (0.6, 2s) and (0.4, 1s), in one
tick, yet the returned enemy has multiplier 0.2 and remaining time 9,
not the claimed (0.4, 2.0). -/
theorem c4_slow_merge_counterexample :
    ((tickGame wTowerTypes wEnemyTypes [] wRoute (fun _ => 0) c4State 1).enemies.map
        (fun e => (e.slowMultiplier, e.slowTimeRemaining))) = [(1/5, 9)]
    ∧ ¬ ((1 : ℚ)/5 = 2/5 ∧ (9 : ℚ) = 2) := by
  constructor
  · norm_num [tickGame, tickGameRun, c4State, baseState, slowedEnemy, slowProj, runSpawnPhase,
      listGet, moveEnemies, samplePolyline, wRoute, sampleSegments, lerpSeg, zeroV,
      runTowerPhase, runProjectilePhase, processProjectile, mapLookup, impacts, dist2,
      impactedEnemies, slowPayloadActive, splashActive, applyDamage, applySlow, createEffect,
      EFFECT_PRESETS, resolveEnemies, mergeSlowStatus, resolveEndgame, advanceWave, ageEffects]
  · norm_num

/-- Claim C4 (amended): simultaneous slow applications to one enemy in
a tick merge in the accumulator by minimum multiplier and maximum
duration, starting from the first application; the merge into a
surviving enemy uses exactly that entry when the enemy carries no
residual slow, while a residual slow joins the minimum (multiplier)
and maximum (remaining time).  In particular applications (0.6, 2s)
and (0.4, 1s) on a residual-free enemy yield multiplier 0.4 and
remaining time 2.0. -/
theorem c4_slow_merge_amended :
    (∀ (enemyId : String) (a : ℚ × ℚ) (apps : List (ℚ × ℚ))
        (m : String → Option (ℚ × ℚ)),
      (∀ x ∈ a :: apps, 0 < x.1 ∧ x.1 < 1 ∧ 0 < x.2) → m enemyId = none →
      ((a :: apps).foldl (fun acc x => applySlow acc enemyId x.1 x.2) m) enemyId
        = some ((apps.map Prod.fst).foldl min a.1, (apps.map Prod.snd).foldl max a.2))
    ∧ (∀ (e : Enemy) (sm sd : ℚ), 0 < sd → e.slowTimeRemaining = 0 →
        (mergeSlowStatus (some (sm, sd)) e).slowMultiplier = sm
        ∧ (mergeSlowStatus (some (sm, sd)) e).slowTimeRemaining = sd)
    ∧ (∀ (e : Enemy) (sm sd : ℚ), 0 < e.slowTimeRemaining →
        (mergeSlowStatus (some (sm, sd)) e).slowMultiplier = min e.slowMultiplier sm
        ∧ (mergeSlowStatus (some (sm, sd)) e).slowTimeRemaining = max e.slowTimeRemaining sd)
    ∧ ([((3 : ℚ)/5, (2 : ℚ)), (2/5, 1)].foldl
        (fun acc x => applySlow acc "E1" x.1 x.2) (fun _ => none)) "E1" = some (2/5, 2) := by
  have hfirst : ∀ (enemyId : String) (a : ℚ × ℚ) (apps : List (ℚ × ℚ))
      (m : String → Option (ℚ × ℚ)),
      (∀ x ∈ a :: apps, 0 < x.1 ∧ x.1 < 1 ∧ 0 < x.2) → m enemyId = none →
      ((a :: apps).foldl (fun acc x => applySlow acc enemyId x.1 x.2) m) enemyId
        = some ((apps.map Prod.fst).foldl min a.1, (apps.map Prod.snd).foldl max a.2) := by
    intro enemyId a apps m hvalid hm
    obtain ⟨h1, h2, h3⟩ := hvalid a (List.mem_cons_self a apps)
    have hguard : ¬ (a.1 ≤ 0 ∨ 1 ≤ a.1 ∨ a.2 ≤ 0) := by
      push_neg
      exact ⟨h1, h2, h3⟩
    have hm' : applySlow m enemyId a.1 a.2 enemyId = some (a.1, a.2) := by
      rw [applySlow, if_neg hguard, hm]
      simp
    simp only [List.foldl_cons]
    exact applySlow_fold enemyId apps (applySlow m enemyId a.1 a.2) a.1 a.2
      (fun x hx => hvalid x (List.mem_cons_of_mem a hx)) hm'
  refine ⟨hfirst, ?_, ?_, ?_⟩
  · intro e sm sd hsd hstr
    rw [mergeSlowStatus]
    constructor
    · simp [hstr]
    · simp [hstr]
      linarith
  · intro e sm sd hstr
    rw [mergeSlowStatus]
    exact ⟨by simp [if_pos hstr], rfl⟩
  · have h := hfirst "E1" ((3 : ℚ)/5, (2 : ℚ)) [((2 : ℚ)/5, (1 : ℚ))] (fun _ => none)
      (by
        intro x hx
        rcases List.mem_cons.1 hx with hx | hx
        · rw [hx]
          norm_num
        · have hx2 : x = ((2 : ℚ)/5, (1 : ℚ)) := by simpa using hx
          rw [hx2]
          norm_num)
      rfl
    rw [h]
    norm_num

/-! ### Claim C5 -/

lemma applyDamage_fold (d : ℚ) (hd : 0 < d) :
    ∀ (L : List Enemy) (m : String → ℚ) (x : String),
      (L.foldl (fun acc e => applyDamage acc e.id d) m) x
        = m x + d * ((L.filter (fun e => e.id = x)).length : ℚ) := by
  intro L
  induction L with
  | nil => intro m x; simp
  | cons e rest ih =>
    intro m x
    simp only [List.foldl_cons]
    rw [ih]
    have hstep : applyDamage m e.id d x = if x = e.id then m e.id + d else m x := by
      rw [applyDamage, if_neg (not_le.2 hd)]
    rw [hstep]
    by_cases hx : e.id = x
    · rw [List.filter_cons_of_pos (by simp [hx]), if_pos hx.symm, hx]
      simp only [List.length_cons]
      push_cast
      ring
    · rw [List.filter_cons_of_neg (by simp [hx]),
        if_neg (fun hc : x = e.id => hx hc.symm)]

lemma filter_id_count {L : List Enemy} (h : (L.map Enemy.id).Nodup) (x : String) :
    ((L.filter (fun e => e.id = x)).length : ℚ)
      = if ∃ e ∈ L, e.id = x then 1 else 0 := by
  induction L with
  | nil => simp
  | cons a rest ih =>
    rw [List.map_cons, List.nodup_cons] at h
    obtain ⟨ha, hrest⟩ := h
    by_cases hx : a.id = x
    · rw [List.filter_cons_of_pos (by simp [hx])]
      have hnone : ¬ ∃ e ∈ rest, e.id = x := by
        rintro ⟨e, he, hex⟩
        exact ha (List.mem_map.2 ⟨e, he, by rw [hex, hx]⟩)
      simp only [List.length_cons]
      rw [if_pos ⟨a, List.mem_cons_self a rest, hx⟩]
      have hcnt := ih hrest
      rw [if_neg hnone] at hcnt
      push_cast
      linarith [hcnt]
    · rw [List.filter_cons_of_neg (by simp [hx])]
      rw [ih hrest]
      by_cases hex : ∃ e ∈ rest, e.id = x
      · obtain ⟨e, he, hee⟩ := hex
        rw [if_pos ⟨e, he, hee⟩, if_pos ⟨e, List.mem_cons_of_mem a he, hee⟩]
      · rw [if_neg hex, if_neg (by
          rintro ⟨e, he, hee⟩
          rcases List.mem_cons.1 he with he | he
          · exact hx (he ▸ hee)
          · exact hex ⟨e, he, hee⟩)]

/-- Claim C5: splash damage scope.  An impacting projectile with a
positive splash radius applies its damage to exactly those enemies of
the post-movement enemy set whose position lies within the splash
radius of the impact point (the locked target position): within
distance `r` the accumulated damage grows by the projectile damage,
outside it stays untouched.  An impacting projectile without a splash
radius damages only the locked target.  (`dist2 a b ≤ r * r` is
exactly Euclidean distance ≤ r, since `r > 0`.) -/
theorem c5_splash_scope (sqrtQ : ℚ → ℚ) (dt : ℚ) (enemies : List Enemy) (acc : ProjAcc)
    (p : Projectile) (tgt : Enemy) (r : ℚ)
    (htgt : mapLookup enemies p.targetEnemyId = some tgt)
    (himp : impacts p tgt dt)
    (hnodup : (enemies.map Enemy.id).Nodup)
    (hdmg : 0 < p.damage) :
    (p.splashRadius = some r → 0 < r →
      ∀ e ∈ enemies,
        (dist2 tgt.position e.position ≤ r * r →
          (processProjectile sqrtQ dt enemies acc p).damage e.id
            = acc.damage e.id + p.damage)
        ∧ (¬ dist2 tgt.position e.position ≤ r * r →
          (processProjectile sqrtQ dt enemies acc p).damage e.id = acc.damage e.id))
    ∧ (p.splashRadius = none →
        (processProjectile sqrtQ dt enemies acc p).damage tgt.id
            = acc.damage tgt.id + p.damage
        ∧ ∀ x : String, x ≠ tgt.id →
          (processProjectile sqrtQ dt enemies acc p).damage x = acc.damage x) := by
  have hproj : (processProjectile sqrtQ dt enemies acc p).damage
      = (impactedEnemies p tgt enemies).foldl
          (fun m e => applyDamage m e.id p.damage) acc.damage := by
    simp only [processProjectile, htgt]
    rw [if_pos himp]
  constructor
  · intro hr hrpos e he
    have himpacted : impactedEnemies p tgt enemies
        = enemies.filter (fun e => dist2 tgt.position e.position ≤ r * r) := by
      simp only [impactedEnemies, hr]
      rw [if_pos hrpos]
    have hnodup' : ((enemies.filter
        (fun e => dist2 tgt.position e.position ≤ r * r)).map Enemy.id).Nodup :=
      List.Nodup.sublist (List.Sublist.map Enemy.id (List.filter_sublist enemies)) hnodup
    constructor
    · intro hwithin
      rw [hproj, himpacted, applyDamage_fold p.damage hdmg, filter_id_count hnodup']
      rw [if_pos ⟨e, List.mem_filter.2 ⟨he, by simpa using hwithin⟩, rfl⟩]
      ring
    · intro hout
      rw [hproj, himpacted, applyDamage_fold p.damage hdmg, filter_id_count hnodup']
      rw [if_neg (by
        rintro ⟨x, hxmem, hxid⟩
        have hx1 := List.mem_filter.1 hxmem
        have hxe : x = e := List.inj_on_of_nodup_map hnodup hx1.1 he hxid
        rw [hxe] at hx1
        exact hout (by simpa using hx1.2))]
      ring
  · intro hr
    have himpacted : impactedEnemies p tgt enemies = [tgt] := by
      simp only [impactedEnemies, hr]
    rw [hproj, himpacted]
    simp only [List.foldl_cons, List.foldl_nil]
    have hstep : applyDamage acc.damage tgt.id p.damage
        = fun id => if id = tgt.id then acc.damage tgt.id + p.damage else acc.damage id := by
      rw [applyDamage, if_neg (not_le.2 hdmg)]
    rw [hstep]
    exact ⟨by simp, fun x hx => by simp [if_neg hx]⟩

/-- Closed witness for C5: splash radius 1.1 impacting at the target
position damages the enemy 0.5 away and not the enemy 1.5 away. -/
theorem c5_splash_scope_witness :
    (processProjectile (fun _ => 0) 1 [enemyA, enemyB, enemyC] emptyProjAcc
        splashProj).damage "EB" = 5
    ∧ (processProjectile (fun _ => 0) 1 [enemyA, enemyB, enemyC] emptyProjAcc
        splashProj).damage "EC" = 0 := by
  have h := c5_splash_scope (fun _ => 0) 1 [enemyA, enemyB, enemyC] emptyProjAcc splashProj
    enemyA (11/10)
    (by
      simp [mapLookup, enemyA, enemyB, enemyC, slowedEnemy, splashProj,
        show (("EB" : String) = "EA") = False by decide,
        show (("EC" : String) = "EA") = False by decide])
    (Or.inr (by norm_num [dist2, splashProj, enemyA, slowedEnemy]))
    (by
      simp [enemyA, enemyB, enemyC, slowedEnemy]
      try decide)
    (by norm_num [splashProj])
  have hB := ((h.1 rfl (by norm_num) enemyB (by simp)).1
    (by norm_num [dist2, enemyA, enemyB, slowedEnemy]))
  have hC := ((h.1 rfl (by norm_num) enemyC (by simp)).2
    (by norm_num [dist2, enemyA, enemyC, slowedEnemy]))
  constructor
  · rw [show ("EB" : String) = enemyB.id from rfl, hB]
    norm_num [emptyProjAcc, splashProj]
  · rw [show ("EC" : String) = enemyC.id from rfl, hC]
    norm_num [emptyProjAcc]

/-! ### Claim C6 -/

lemma processTower_beams (towerTypes : TowerTypeId → TowerType) (dt : ℚ)
    (enemies : List Enemy) (acc : TowerAcc) (tower : Tower) :
    (processTower towerTypes dt enemies acc tower).beams
      = acc.beams ++ (beamFor towerTypes enemies tower).toList := by
  cases htgt : selectTarget enemies tower.cell (getTowerStats towerTypes tower)
      tower.targetMode with
  | none =>
    simp only [processTower, beamFor, htgt]
    split_ifs <;> simp
  | some target =>
    simp only [processTower, beamFor, htgt]
    split_ifs <;> simp

lemma runTowerPhase_beams (towerTypes : TowerTypeId → TowerType) (dt : ℚ)
    (enemies : List Enemy) :
    ∀ (towers : List Tower) (acc : TowerAcc),
      (runTowerPhase towerTypes dt enemies towers acc).beams
        = acc.beams ++ towers.filterMap (beamFor towerTypes enemies) := by
  intro towers
  induction towers with
  | nil => intro acc; simp [runTowerPhase]
  | cons t ts ih =>
    intro acc
    have hstep : runTowerPhase towerTypes dt enemies (t :: ts) acc
        = runTowerPhase towerTypes dt enemies ts (processTower towerTypes dt enemies acc t) :=
      rfl
    rw [hstep, ih, processTower_beams]
    rw [List.filterMap_cons]
    cases beamFor towerTypes enemies t <;> simp

/-- In a running tick the returned beams list is exactly the
per-tower `beamFor` record of every tower, against the post-movement
enemy set. -/
lemma tickGame_beams (towerTypes : TowerTypeId → TowerType)
    (enemyTypes : EnemyTypeId → EnemyType) (waves : List WaveDefinition)
    (route : PolylineData) (sqrtQ : ℚ → ℚ) (s : GameState) (dt : ℚ)
    (hs : s.status = MatchStatus.running) (hdt : 0 < dt) :
    (tickGame towerTypes enemyTypes waves route sqrtQ s dt).beams
      = s.towers.filterMap (beamFor towerTypes
          (moveEnemies route dt (runSpawnPhase enemyTypes waves route s dt).enemies
            s.lives).1) := by
  rw [tickGame, if_pos hs, max_eq_right hdt.le, if_neg hdt.ne']
  simp only [tickGameRun]
  rw [runTowerPhase_beams]
  simp

lemma beamFor_sourceTowerId {towerTypes : TowerTypeId → TowerType} {enemies : List Enemy}
    {tw : Tower} {b : Beam} (h : beamFor towerTypes enemies tw = some b) :
    b.sourceTowerId = tw.id := by
  unfold beamFor at h
  by_cases h1 : (getTowerStats towerTypes tw).attackKind = AttackKind.beam
  · rw [if_pos h1] at h
    cases htgt : selectTarget enemies tw.cell (getTowerStats towerTypes tw) tw.targetMode with
    | none =>
      rw [htgt] at h
      exact absurd h (by simp)
    | some target =>
      rw [htgt] at h
      simp only [Option.some.injEq] at h
      rw [← h]
  · rw [if_neg h1] at h
    exact absurd h (by simp)

lemma filterMap_beams_count (towerTypes : TowerTypeId → TowerType) (enemies : List Enemy) :
    ∀ (towers : List Tower) (tower : Tower) (b : Beam),
      (towers.map Tower.id).Nodup → tower ∈ towers →
      beamFor towerTypes enemies tower = some b →
      ((towers.filterMap (beamFor towerTypes enemies)).filter
        (fun bm => bm.sourceTowerId = tower.id)).length = 1 := by
  intro towers
  induction towers with
  | nil => intro tower b _ hmem; simp at hmem
  | cons a rest ih =>
    intro tower b hnodup hmem hbeam
    rw [List.map_cons, List.nodup_cons] at hnodup
    obtain ⟨ha, hrest⟩ := hnodup
    rw [List.filterMap_cons]
    rcases List.mem_cons.1 hmem with hmem | hmem
    · subst hmem
      rw [hbeam]
      rw [List.filter_cons_of_pos (by simp [beamFor_sourceTowerId hbeam])]
      simp only [List.length_cons]
      have hzero : (rest.filterMap (beamFor towerTypes enemies)).filter
          (fun bm => bm.sourceTowerId = tower.id) = [] := by
        rw [List.filter_eq_nil]
        intro bm hbm
        obtain ⟨tw, htw, htwb⟩ := List.mem_filterMap.1 hbm
        rw [beamFor_sourceTowerId htwb]
        intro hcon
        have := of_decide_eq_true hcon
        exact ha (List.mem_map.2 ⟨tw, htw, this⟩)
      rw [hzero]
      rfl
    · have hne : a.id ≠ tower.id := by
        intro hcon
        exact ha (List.mem_map.2 ⟨tower, hmem, hcon.symm⟩)
      cases hfa : beamFor towerTypes enemies a with
      | none => exact ih tower b hrest hmem hbeam
      | some b' =>
        rw [List.filter_cons_of_neg (by
          simp only [decide_eq_true_eq]
          rw [beamFor_sourceTowerId hfa]
          exact hne)]
        exact ih tower b hrest hmem hbeam

/-- Claim C6: beam towers.  For a tower whose effective attack kind is
`beam` with a selected target: the tick accumulates damage equal to
the effective damage-per-second times dt against that target,
regardless of the cooldown state (quantified over any cooldown in
`tower`); no projectile is created; exactly one beam record from the
tower center to the target position is appended; the fire event is
emitted exactly when the decremented cooldown has reached 0 and the
per-tick fire-event budget allows it.  Moreover in a running tick the
returned beams list is exactly the `beamFor` record of each tower
(against the post-movement enemies), and with unique tower ids a beam
tower with a live target owns exactly one beam record in the returned
state. -/
theorem c6_beam_towers (towerTypes : TowerTypeId → TowerType) (dt : ℚ)
    (enemies : List Enemy) (acc : TowerAcc) (tower : Tower) (tgt : Enemy)
    (hkind : (getTowerStats towerTypes tower).attackKind = AttackKind.beam)
    (htgt : selectTarget enemies tower.cell (getTowerStats towerTypes tower)
      tower.targetMode = some tgt)
    (hdmg : 0 < (getTowerStats towerTypes tower).damage * dt) :
    (processTower towerTypes dt enemies acc tower).damage tgt.id
        = acc.damage tgt.id + (getTowerStats towerTypes tower).damage * dt
    ∧ (processTower towerTypes dt enemies acc tower).projectiles = acc.projectiles
    ∧ (processTower towerTypes dt enemies acc tower).beams
        = acc.beams ++ [beamRecordOf towerTypes tower tgt]
    ∧ (processTower towerTypes dt enemies acc tower).events
        = acc.events ++ (if max 0 (tower.cooldown - dt) ≤ 0 ∧ 0 < acc.fireEventBudget
            then [{ id := acc.nextEventId, type := GameEventType.fire, towerType := some tower.towerType }]
            else [])
    ∧ (∀ (enemyTypes : EnemyTypeId → EnemyType) (waves : List WaveDefinition)
          (route : PolylineData) (sqrtQ : ℚ → ℚ) (s : GameState) (dt2 : ℚ),
        s.status = MatchStatus.running → 0 < dt2 →
        (tickGame towerTypes enemyTypes waves route sqrtQ s dt2).beams
          = s.towers.filterMap (beamFor towerTypes
              (moveEnemies route dt2 (runSpawnPhase enemyTypes waves route s dt2).enemies
                s.lives).1))
    ∧ (∀ (enemyTypes : EnemyTypeId → EnemyType) (waves : List WaveDefinition)
          (route : PolylineData) (sqrtQ : ℚ → ℚ) (s : GameState) (dt2 : ℚ) (b : Beam),
        s.status = MatchStatus.running → 0 < dt2 →
        (s.towers.map Tower.id).Nodup → tower ∈ s.towers →
        beamFor towerTypes
          (moveEnemies route dt2 (runSpawnPhase enemyTypes waves route s dt2).enemies
            s.lives).1 tower = some b →
        (((tickGame towerTypes enemyTypes waves route sqrtQ s dt2).beams).filter
          (fun bm => bm.sourceTowerId = tower.id)).length = 1) := by
  have hbranch :
      (processTower towerTypes dt enemies acc tower).damage tgt.id
          = acc.damage tgt.id + (getTowerStats towerTypes tower).damage * dt
      ∧ (processTower towerTypes dt enemies acc tower).projectiles = acc.projectiles
      ∧ (processTower towerTypes dt enemies acc tower).beams
          = acc.beams ++ [beamRecordOf towerTypes tower tgt]
      ∧ (processTower towerTypes dt enemies acc tower).events
          = acc.events ++ (if max 0 (tower.cooldown - dt) ≤ 0 ∧ 0 < acc.fireEventBudget
              then [{ id := acc.nextEventId, type := GameEventType.fire, towerType := some tower.towerType }]
              else []) := by
    have hdval : applyDamage acc.damage tgt.id
        ((getTowerStats towerTypes tower).damage * dt) tgt.id
        = acc.damage tgt.id + (getTowerStats towerTypes tower).damage * dt := by
      rw [applyDamage, if_neg (not_le.2 hdmg)]
      simp
    simp only [processTower, htgt]
    rw [if_pos hkind]
    by_cases hcb : max 0 (tower.cooldown - dt) ≤ 0 ∧ 0 < acc.fireEventBudget
    · rw [if_pos hcb, if_pos hcb]
      exact ⟨hdval, rfl, rfl, rfl⟩
    · rw [if_neg hcb, if_neg hcb]
      exact ⟨hdval, rfl, rfl, by simp⟩
  refine ⟨hbranch.1, hbranch.2.1, hbranch.2.2.1, hbranch.2.2.2, ?_, ?_⟩
  · intro enemyTypes waves route sqrtQ s dt2 hs hdt2
    exact tickGame_beams towerTypes enemyTypes waves route sqrtQ s dt2 hs hdt2
  · intro enemyTypes waves route sqrtQ s dt2 b hs hdt2 hnodup hmem hbeam
    rw [tickGame_beams towerTypes enemyTypes waves route sqrtQ s dt2 hs hdt2]
    exact filterMap_beams_count towerTypes _ s.towers tower b hnodup hmem hbeam

/-- Closed witness for C6: a laser (beam) tower over an adjacent
target accumulates 10 damage in a 1-second tick, spawns no projectile
and contributes exactly one beam record. -/
theorem c6_beam_towers_witness :
    (processTower wBeamTowerTypes 1 [enemyA] emptyTowerAcc beamTower).damage "EA" = 10
    ∧ (processTower wBeamTowerTypes 1 [enemyA] emptyTowerAcc beamTower).projectiles = []
    ∧ (processTower wBeamTowerTypes 1 [enemyA] emptyTowerAcc beamTower).beams
        = [beamRecordOf wBeamTowerTypes beamTower enemyA] := by
  have h := c6_beam_towers wBeamTowerTypes 1 [enemyA] emptyTowerAcc beamTower enemyA
    (by norm_num [getTowerStats, wBeamTowerTypes, laserType])
    (by norm_num [selectTarget, isBetterTarget, cellCenter, enemyA, slowedEnemy, getTowerStats,
      wBeamTowerTypes, laserType, beamTower])
    (by norm_num [getTowerStats, wBeamTowerTypes, laserType, jsRound, beamTower,
      TOWER_LEVEL_DAMAGE_BONUS])
  refine ⟨?_, h.2.1.trans rfl, ?_⟩
  · rw [show ("EA" : String) = enemyA.id from rfl, h.1]
    norm_num [emptyTowerAcc, getTowerStats, wBeamTowerTypes, laserType, jsRound, beamTower,
      TOWER_LEVEL_DAMAGE_BONUS]
  · rw [h.2.2.1]
    rfl

end TD
